import Mathlib

/-!
Verification of the ingestion-validation and content-addressed cataloging
subsystem of the `arxiv-bucket` repository, via a shallow embedding of the
Python sources into Lean.

Conventions used throughout:

* File-system observations (existence of files and directories, whether a
  file's bytes parse as a tar or as a gzip stream, file size, hashes,
  modification timestamps, tar member listings, raw bytes) are collected in an
  `Env` record; the Python code queries them through `FileSystem`,
  `HashService`, `tarfile` and `gzip`, whose results are deterministic during a
  run with no state change.
* Python functions that can raise are embedded as `Except Err` values (for
  pure computations) or as `state × Option Err` pairs (for methods that mutate
  a registry object and may also raise); a `some e` second component means the
  call raised `e` and the first component is the object's state after the
  raise.
* Machine strings are modelled as Lean `String`s; character-level work is done
  on `List Char`.  Python's `str.lower` and the regex class `\w` are modelled
  at ASCII granularity, which is exact on the ASCII filenames the grammars of
  this repository accept.
-/

namespace ArxivBucket

/-- Decidable equality of `Except` results, used to evaluate the embedded
functions on concrete inputs. -/
instance {ε α : Type _} [DecidableEq ε] [DecidableEq α] : DecidableEq (Except ε α)
  | .ok a, .ok b => if h : a = b then .isTrue (by rw [h]) else .isFalse (by simp [h])
  | .ok _, .error _ => .isFalse (by simp)
  | .error _, .ok _ => .isFalse (by simp)
  | .error e, .error f => if h : e = f then .isTrue (by rw [h]) else .isFalse (by simp [h])

/-- Python exception taxonomy used by the embedded code. -/
inductive Err where
  | fileNotFound (msg : String)
  | valueError (msg : String)
  | keyError (msg : String)
  | typeError (msg : String)
  | attributeError (msg : String)
  | structError (msg : String)
  | nonTermination (msg : String)
deriving Repr, DecidableEq

/-- Embedding of the `FileType` enumeration from `file/file_type.py`. -/
inductive FileType where
  | unknown
  | archive_gz
  | archive_tar
  | archive_tgz
  | image_bmp
  | image_gif
  | image_ico
  | image_jpg
  | image_png
  | image_svg
  | image_tiff
  | pdf
  | postscript_ps
  | postscript_eps
  | postscript_epsf
  | postscript_epsi
  | xml
  | tex_aux
  | tex_bbl
  | tex_bib
  | tex_bst
  | tex_clo
  | tex_cls
  | tex_dvi
  | tex_fig
  | tex_log
  | tex_pstex
  | tex_pstex_t
  | tex_sty
  | tex_synctex
  | tex_tex
  | tex_latex_209_main
  | tex_latex_2e_main
  | tex_tikz
  | tex_toc
deriving Repr, DecidableEq

/-- Embedding of the `SubmissionType` enumeration from `arxiv/submission_type.py`. -/
inductive SubmissionType where
  | unknown
  | pdf
  | postscript
  | tex
deriving Repr, DecidableEq

/-- Deterministic observations of the file system and of the byte-level
probes made by the Python standard library during a run with no state change.
`tarParses` is the result of `tarfile.is_tarfile`
(`ArchiveHandler._is_tar_or_tgz_format`), `gzipParses` the result of the
`gzip.open` read probe (`ArchiveHandler._is_gzip_or_tgz_format`), and
`tarMembers` the regular-file member names returned by
`tarfile.getmembers` (`ArchiveHandler._list_tar_or_tgz_contents`).
`otherFormatResult` is the verdict of `FileHandler.get_file_type_from_format`
dispatch for paths whose extension is owned by a non-archive handler
(image/pdf/postscript/tex/xml content probes), and `extraExtTypes` the
extension table of the handlers whose sources lie outside the embedded
fragment (pdf/postscript/xml). -/
structure Env where
  isFile : String → Bool
  isDirectory : String → Bool
  tarParses : String → Bool
  gzipParses : String → Bool
  tarMembers : String → List String
  fileBytes : String → List Nat
  sizeBytes : String → Nat
  md5 : String → String
  sha256 : String → String
  timestampIso : String → String
  cwdComps : List String
  otherFormatResult : String → FileType
  extraExtTypes : String → List FileType

/-- The process working directory used by `os.path.abspath`; `os.getcwd`
always returns an absolute path, which the model enforces by building the
string from its components. -/
def Env.cwd (env : Env) : String :=
  "/" ++ String.intercalate "/" env.cwdComps

/-! ### Character and path helpers (embedding `os.path` as used by the code) -/

/-- ASCII lower-casing of one character (models `str.lower` on the ASCII
filenames handled here). -/
def charLower (c : Char) : Char :=
  if 'A' ≤ c ∧ c ≤ 'Z' then Char.ofNat (c.toNat + 32) else c

/-- ASCII lower-casing of a string. -/
def strLower (s : String) : String :=
  ⟨s.data.map charLower⟩

/-- Split a character list at every occurrence of `c`, keeping empty pieces,
as Python's `str.split` with an explicit separator does. -/
def splitChar (c : Char) : List Char → List (List Char)
  | [] => [[]]
  | x :: xs =>
    let r := splitChar c xs
    if x = c then [] :: r
    else
      match r with
      | [] => [[x]]
      | h :: t => (x :: h) :: t

/-- Components of a path string, split on `/` (Python `file_path.split('/')`). -/
def pathComponents (s : String) : List String :=
  (splitChar '/' s.data).map (fun cs => ⟨cs⟩)

/-- Index of the last occurrence of `c`, if any. -/
def lastIdxOf (c : Char) : List Char → Option Nat
  | [] => none
  | x :: xs =>
    match lastIdxOf c xs with
    | some i => some (i + 1)
    | none => if x = c then some 0 else none

/-- Embedding of `os.path.basename` for POSIX paths: the part after the last
`/`. -/
def get_file_basename (p : String) : String :=
  ((splitChar '/' p.data).getLastD []).asString

/-- Embedding of `os.path.splitext` on a single path component (no `/`): split
at the last dot unless every character before it is a dot. -/
def splitextBase (s : String) : String × String :=
  match lastIdxOf '.' s.data with
  | none => (s, "")
  | some d =>
    if (s.data.take d).all (· = '.') then (s, "")
    else (⟨s.data.take d⟩, ⟨s.data.drop d⟩)

/-- Embedding of `FileName.get_file_extension`, i.e. `os.path.splitext(p)[1]`.
`os.path.splitext` only recognises a dot that lies after the final path
separator, so the extension of a path equals the extension of its basename. -/
def get_file_extension (p : String) : String :=
  (splitextBase (get_file_basename p)).2

/-- Whether a path string begins with the POSIX separator (Python
`path.startswith('/')`). -/
def isAbsPath (s : String) : Bool :=
  match s.data with
  | '/' :: _ => true
  | _ => false

/-- Whether a path string ends with the POSIX separator (Python
`path.endswith('/')`). -/
def endsWithSlash (s : String) : Bool :=
  match s.data.getLast? with
  | some '/' => true
  | _ => false

/-- Length of the leading run of separators. -/
def leadingSlashes (s : String) : Nat :=
  (s.data.takeWhile (fun c => c = '/')).length

/-- Embedding of `posixpath.join(a, b)` for two arguments: an absolute second
argument discards the first. -/
def joinPath (a b : String) : String :=
  if isAbsPath b then b
  else if a = "" ∨ endsWithSlash a then a ++ b
  else a ++ "/" ++ b

/-! ### `ArchiveHandler` (file/handler/archive_handler.py): format classification -/

namespace ArchiveHandler

/-- `ArchiveHandler._file_extension_map`. -/
def file_extension_map : List (String × List FileType) :=
  [(".gz", [.archive_gz, .archive_tgz]),
   (".tar", [.archive_tar]),
   (".tgz", [.archive_tgz])]

/-- `ArchiveHandler.is_tar_format`: the file parses as tar and not as gzip. -/
def is_tar_format (env : Env) (p : String) : Except Err Bool :=
  if ¬ env.isFile p then .error (.fileNotFound "file not found")
  else .ok (env.tarParses p && !env.gzipParses p)

/-- `ArchiveHandler.is_gzip_format`: the file parses as gzip and not as tar. -/
def is_gzip_format (env : Env) (p : String) : Except Err Bool :=
  if ¬ env.isFile p then .error (.fileNotFound "file not found")
  else .ok (env.gzipParses p && !env.tarParses p)

/-- `ArchiveHandler.is_tgz_format`: the file parses as gzip and as tar. -/
def is_tgz_format (env : Env) (p : String) : Except Err Bool :=
  if ¬ env.isFile p then .error (.fileNotFound "file not found")
  else .ok (env.gzipParses p && env.tarParses p)

/-- `ArchiveHandler.get_file_type_from_format`: tar, then tgz, then gzip, else
unknown. -/
def get_file_type_from_format (env : Env) (p : String) : Except Err FileType := do
  if ← is_tar_format env p then return .archive_tar
  else if ← is_tgz_format env p then return .archive_tgz
  else if ← is_gzip_format env p then return .archive_gz
  else return .unknown

/-- `ArchiveHandler.is_archive_format`. -/
def is_archive_format (env : Env) (p : String) : Except Err Bool := do
  if ¬ env.isFile p then .error (.fileNotFound "file not found")
  else
    let t ← is_tar_format env p
    let z ← is_tgz_format env p
    let g ← is_gzip_format env p
    return t || g || z

/-! #### The lightweight gzip member-name reader (`_list_gzip_contents`) -/

/-- Consume bytes up to (excluding) the first `0` byte, returning the consumed
bytes and the rest after the `0`; `none` when no `0` byte occurs (the Python
reader then re-reads `b''` at end-of-file forever and never terminates). -/
def takeUntilZero : List Nat → Option (List Nat × List Nat)
  | [] => none
  | b :: bs =>
    if b = 0 then some ([], bs)
    else
      match takeUntilZero bs with
      | none => none
      | some (nm, rest) => some (b :: nm, rest)

/-- Byte-level core of `ArchiveHandler._list_gzip_contents`: hand-parse the
10-byte gzip header (`struct.unpack('<BBBBLBB', read(10))`), tolerate a failed
magic/compression-method check by returning an empty name list, conditionally
skip the length-prefixed extra field (flag bit 2) and read the NUL-terminated
original-filename field (flag bit 3).  Member names are kept as byte lists
(the Python code decodes them afterwards). -/
def list_gzip_bytes (bytes : List Nat) : Except Err (List (List Nat)) :=
  match bytes with
  | id1 :: id2 :: compression :: flags :: _m1 :: _m2 :: _m3 :: _m4 :: _xf :: _os :: rest =>
    let is_valid_compression_format := id1 = 0x1F ∧ id2 = 0x8B ∧ compression = 0x08
    if is_valid_compression_format then
      let is_extra_field_present := flags.land (1 <<< 2) ≠ 0
      let afterExtra : Except Err (List Nat) :=
        if is_extra_field_present then
          match rest with
          | xl1 :: xl2 :: r => .ok (r.drop (xl1 + 256 * xl2))
          | _ => .error (.structError "unpack requires a buffer of 2 bytes")
        else .ok rest
      match afterExtra with
      | .error e => .error e
      | .ok r =>
        let is_filename_field_present := flags.land (1 <<< 3) ≠ 0
        if is_filename_field_present then
          match takeUntilZero r with
          | some (nm, _) => .ok [nm]
          | none => .error (.nonTermination "read(1) at EOF never yields the NUL sentinel")
        else .ok []
    else .ok []
  | _ => .error (.structError "unpack requires a buffer of 10 bytes")

/-- Decode a byte list into a string (`bytes.decode()`, restricted to the
ASCII member names this model handles). -/
def decodeBytes (bs : List Nat) : String :=
  ⟨bs.map Char.ofNat⟩

/-- `ArchiveHandler._list_gzip_contents`: existence and gzip-format guards
around the byte-level header reader. -/
def list_gzip_contents (env : Env) (p : String) : Except Err (List String) := do
  if ¬ env.isFile p then .error (.fileNotFound "file not found")
  else
    let g ← is_gzip_format env p
    if ¬ g then .error (.typeError "file not in gzip format")
    else
      match list_gzip_bytes (env.fileBytes p) with
      | .error e => .error e
      | .ok names => .ok (names.map decodeBytes)

/-- `ArchiveHandler._list_tar_contents`. -/
def list_tar_contents (env : Env) (p : String) : Except Err (List String) := do
  if ¬ env.isFile p then .error (.fileNotFound "file not found")
  else
    let t ← is_tar_format env p
    if ¬ t then .error (.typeError "file not in tar format")
    else .ok (env.tarMembers p)

/-- `ArchiveHandler._list_tgz_contents`. -/
def list_tgz_contents (env : Env) (p : String) : Except Err (List String) := do
  if ¬ env.isFile p then .error (.fileNotFound "file not found")
  else
    let z ← is_tgz_format env p
    if ¬ z then .error (.typeError "file not in tgz format")
    else .ok (env.tarMembers p)

/-- `ArchiveHandler.list_contents`: dispatch on the classified format. -/
def list_contents (env : Env) (p : String) : Except Err (List String) := do
  let a ← is_archive_format env p
  if ¬ a then .error (.typeError "file not a supported archive format")
  else if ← is_gzip_format env p then list_gzip_contents env p
  else if ← is_tar_format env p then list_tar_contents env p
  else if ← is_tgz_format env p then list_tgz_contents env p
  else .error (.typeError "file not listed as a supported archive format")

end ArchiveHandler

/-! ### `os.path.normpath` / `abspath` / `commonpath` (as used by
`FileName.is_path_within_directory`) -/

/-- Component loop of `posixpath.normpath`: drop empty and `.` components,
let `..` cancel a previous real component, and keep leading `..` components
of a relative path. -/
def normpathFold (initialSlashes : Nat) : List String → List String → List String
  | acc, [] => acc
  | acc, comp :: rest =>
    if comp = "" ∨ comp = "." then normpathFold initialSlashes acc rest
    else if comp ≠ ".." ∨ (initialSlashes = 0 ∧ acc = []) ∨ acc.getLast? = some ".." then
      normpathFold initialSlashes (acc ++ [comp]) rest
    else if acc ≠ [] then normpathFold initialSlashes acc.dropLast rest
    else normpathFold initialSlashes acc rest

/-- Embedding of `posixpath.normpath` (POSIX separator, the two-leading-slash
special case included). -/
def normpath (p : String) : String :=
  if p = "" then "."
  else
    let initialSlashes : Nat :=
      if leadingSlashes p = 0 then 0
      else if leadingSlashes p = 2 then 2
      else 1
    let newComps := normpathFold initialSlashes [] (pathComponents p)
    let r := String.join (List.replicate initialSlashes "/") ++
      String.intercalate "/" newComps
    if r = "" then "." else r

/-- Embedding of `os.path.abspath`: join a relative path onto the working
directory, then normalise. -/
def abspath (cwd p : String) : String :=
  if isAbsPath p then normpath p
  else normpath (joinPath cwd p)

/-- Longest common leading run of two component lists (what
`posixpath.commonpath` computes from the lexicographic min and max of the
split paths). -/
def commonLead : List String → List String → List String
  | a :: as, b :: bs => if a = b then a :: commonLead as bs else []
  | _, _ => []

/-- Embedding of `posixpath.commonpath` on absolute paths (the only shape the
code feeds it: both arguments come out of `os.path.abspath`): split each path,
drop empty and `.` components, and join the common leading run under `/`. -/
def commonpathAbs (paths : List String) : String :=
  let split := paths.map (fun p => (pathComponents p).filter (fun c => c ≠ "" ∧ c ≠ "."))
  match split with
  | [] => ""
  | s :: ss => "/" ++ String.intercalate "/" (ss.foldl commonLead s)

/-! ### `FileName` (file/file_name.py) -/

namespace FileName

/-- `FileName.MAX_FILENAME_LENGTH`. -/
def MAX_FILENAME_LENGTH : Nat := 250

/-- One character of the class `[\w\-.+=]` (ASCII granularity). -/
def isAllowedChar (c : Char) : Bool :=
  c.isAlphanum || c = '_' || c = '-' || c = '.' || c = '+' || c = '='

/-- A component matching the anchored regex `^[\w\-.+=]+$`. -/
def matchesAllowedPattern (s : String) : Bool :=
  s ≠ "" && s.data.all isAllowedChar

/-- `FileName.is_path_characters_allowed`: every `/`-separated component
matches the allowed pattern and is none of `''`, `'.'`, `'..'`. -/
def is_path_characters_allowed (p : String) : Bool :=
  (pathComponents p).all (fun comp =>
    matchesAllowedPattern comp && !(comp = "" ∨ comp = "." ∨ comp = ".."))

/-- `FileName.is_path_within_directory`: compare the common path of the
resolved base directory with the common path of base and target. -/
def is_path_within_directory (env : Env) (base target : String) : Bool :=
  let abs_base_directory := abspath env.cwd (normpath base)
  let abs_target_path := abspath env.cwd (normpath target)
  commonpathAbs [abs_base_directory] == commonpathAbs [abs_base_directory, abs_target_path]

/-- `FileName.is_filename_allowed`: inside the sentinel `temp` root, allowed
characters only, and length within bounds. -/
def is_filename_allowed (env : Env) (p : String) : Bool :=
  let temp_path := joinPath "temp" p
  let is_within_temp_directory := is_path_within_directory env "temp" temp_path
  let has_valid_characters := is_path_characters_allowed p
  let n := p.length
  let is_length_valid := decide (0 < n) && decide (n < MAX_FILENAME_LENGTH)
  is_within_temp_directory && has_valid_characters && is_length_valid

/-- `FileName.is_filename_list_unique`: after optional basename reduction and
lower-casing, the list has no duplicates (`len(set(x)) == len(x)`). -/
def is_filename_list_unique (filename_list : List String)
    (is_case_insensitive is_filename_only : Bool) : Bool :=
  let processed := filename_list.map
    (fun filename => if is_filename_only then get_file_basename filename else filename)
  let processed := if is_case_insensitive then processed.map strLower else processed
  decide processed.Nodup

end FileName

/-! ### `ArchiveHandler.check_extract_possible` / `is_extract_possible` -/

namespace ArchiveHandler

/-- `ArchiveHandler.check_extract_possible`: source-file and destination
checks, then (only if both pass) member enumeration with uniqueness,
forbidden-name and overwrite checks; the overwrite loop stops at the first
existing destination file. -/
def check_extract_possible (env : Env) (source_file_path destination_directory : String) :
    Except Err (List String) :=
  let is_file_found := env.isFile source_file_path
  let el1 := if ¬ is_file_found then ["file not found"] else []
  let is_directory := env.isDirectory destination_directory
  let el2 := el1 ++ (if ¬ is_directory then ["destination directory not found"] else [])
  if is_file_found && is_directory then
    match list_contents env source_file_path with
    | .error e => .error e
    | .ok file_contents =>
      let is_unique_names := FileName.is_filename_list_unique file_contents true false
      let el3 := el2 ++ (if ¬ is_unique_names then
        ["archive contents filename is not unique on case-insensitive file systems"] else [])
      let is_valid_filenames := file_contents.all (fun entry => FileName.is_filename_allowed env entry)
      let el4 := el3 ++ (if ¬ is_valid_filenames then
        ["archive contents filenames are forbidden"] else [])
      if is_unique_names && is_valid_filenames then
        .ok (el4 ++ (if file_contents.any (fun contents_filename =>
            env.isFile (joinPath destination_directory contents_filename)) then
          ["destination file already exists"] else []))
      else .ok el4
  else .ok el2

/-- `ArchiveHandler.is_extract_possible`: the boolean wrapper
`len(check_extract_possible(...)) == 0`. -/
def is_extract_possible (env : Env) (source_file_path destination_directory : String) :
    Except Err Bool :=
  match check_extract_possible env source_file_path destination_directory with
  | .error e => .error e
  | .ok error_log => .ok (error_log.length == 0)

end ArchiveHandler

/-! ### `Manifest` (arxiv/manifest.py): temporal comparison of two indices

The code stores `metadata['manifest_timestamp_iso']` as the canonical ISO-8601
UTC string produced by `_convert_arxiv_timestamp_to_iso`, compares it once by
string equality and once through `datetime.fromisoformat` ordering
(`TimeService.is_iso_timestamp_newer`); on these canonical fixed-format
strings, string equality coincides with instant equality and the parsed order
with the instant order, so the model carries the timestamp as one integer
instant.  `list_keys` returns the key set of `contents`; only the key set
takes part in the compared behaviour, so the model carries it directly. -/

structure Manifest where
  manifest_timestamp_iso : Int
  contents_keys : Finset String
deriving DecidableEq

/-- `TimeService.is_iso_timestamp_newer`: strict order on parsed timestamps. -/
def TimeService.is_iso_timestamp_newer (iso_timestamp1 iso_timestamp2 : Int) : Bool :=
  iso_timestamp2 < iso_timestamp1

/-- `Manifest.list_keys`. -/
def Manifest.list_keys (m : Manifest) : Finset String :=
  m.contents_keys

/-- `Manifest.is_newer_than`: timestamp comparison with the key-set growth
invariants; raises on identical timestamps with diverging keys, on a newer
side with no added key, and on a newer side missing an old key. -/
def Manifest.is_newer_than (m other_manifest : Manifest) : Except Err Bool :=
  let iso_timestamp1 := m.manifest_timestamp_iso
  let iso_timestamp2 := other_manifest.manifest_timestamp_iso
  let current_keys := m.list_keys
  let other_keys := other_manifest.list_keys
  let common_keys := current_keys ∩ other_keys
  let files_in_current_but_not_in_other := current_keys \ common_keys
  let files_in_other_but_not_in_current := other_keys \ common_keys
  if iso_timestamp1 = iso_timestamp2 then
    if 0 < files_in_current_but_not_in_other.card ∨ 0 < files_in_other_but_not_in_current.card then
      .error (.valueError "Inconsistent manifest metadata, manifests with identical times must have identical keys")
    else .ok false
  else
    let is_timestamp_newer := TimeService.is_iso_timestamp_newer iso_timestamp1 iso_timestamp2
    if is_timestamp_newer then
      if files_in_current_but_not_in_other.card = 0 then
        .error (.valueError "Inconsistent manifest metadata, newer manifest must have at least one new entry")
      else if 0 < files_in_other_but_not_in_current.card then
        .error (.valueError "Inconsistent manifest metadata, newer manifest cannot have entries deleted")
      else .ok is_timestamp_newer
    else
      if files_in_other_but_not_in_current.card = 0 then
        .error (.valueError "Inconsistent manifest metadata, newer manifest must have at least one new entry")
      else if 0 < files_in_current_but_not_in_other.card then
        .error (.valueError "Inconsistent manifest metadata, newer manifest cannot have entries deleted")
      else .ok is_timestamp_newer

/-- `Manifest.find_new_entries`: requires the receiver to be newer, then
returns its keys minus the reference keys. -/
def Manifest.find_new_entries (m reference_manifest : Manifest) : Except Err (Finset String) :=
  match m.is_newer_than reference_manifest with
  | .error e => .error e
  | .ok b =>
    if ¬ b then .error (.valueError "Reference manifest must be older than the current manifest")
    else .ok (m.list_keys \ reference_manifest.list_keys)

/-- Key set of the side with the newer timestamp (statement vocabulary for the
growth invariants; only used when the timestamps differ). -/
def newerSideKeys (a b : Manifest) : Finset String :=
  if b.manifest_timestamp_iso < a.manifest_timestamp_iso then a.list_keys else b.list_keys

/-- Key set of the side with the older timestamp. -/
def olderSideKeys (a b : Manifest) : Finset String :=
  if b.manifest_timestamp_iso < a.manifest_timestamp_iso then b.list_keys else a.list_keys

/-! ### `Registry` (services/registry.py): the generic hash-keyed store

A Python `dict` with string keys is modelled as an association list whose keys
are pairwise distinct (`List.Nodup` on the key projection); every mutation the
embedded code performs preserves that invariant.  Methods that mutate the
object and may raise return the post-state together with the raised
exception, `none` meaning a normal return. -/

abbrev Reg (α : Type) := List (String × α)

namespace Registry

/-- `Registry.is_key_present`. -/
def is_key_present (r : Reg α) (hash_key : String) : Bool :=
  r.any (fun kv => kv.1 = hash_key)

/-- Value stored under a key, if any. -/
def get_entry? (r : Reg α) (hash_key : String) : Option α :=
  (r.find? (fun kv => kv.1 = hash_key)).map (fun kv => kv.2)

/-- `Registry.get_entry`: raises `KeyError` when the key is absent. -/
def get_entry (r : Reg α) (hash_key : String) : Except Err α :=
  match get_entry? r hash_key with
  | none => .error (.keyError ("Hash key '" ++ hash_key ++ "' not found in registry."))
  | some e => .ok e

/-- `Registry.add_entry`: write-once, raises `KeyError` on an existing key. -/
def add_entry (r : Reg α) (hash_key : String) (entry : α) : Except Err (Reg α) :=
  if is_key_present r hash_key then
    .error (.keyError ("Hash key '" ++ hash_key ++ "' already exists in registry."))
  else .ok (r ++ [(hash_key, entry)])

/-- In-place replacement of the value stored under a key: the Python code
mutates the dict object returned by `get_entry`; with pairwise-distinct keys
that equals replacing the value at the key. -/
def updateAt (r : Reg α) (hash_key : String) (entry : α) : Reg α :=
  r.map (fun kv => if kv.1 = hash_key then (kv.1, entry) else kv)

/-- `Registry.clear`. -/
def clear (_r : Reg α) : Reg α := []

/-- `Registry.load`: clears the registry first, then checks existence (raising
`FileNotFoundError` on a missing file), then replaces the state with the
parsed document.  `deserialize` stands for the opaque `json.load` round-trip
of the persisted registry document. -/
def load (env : Env) (deserialize : String → Reg α) (r : Reg α) (file_path : String) :
    Reg α × Option Err :=
  let r := clear r
  if ¬ env.isFile file_path then
    (r, some (.fileNotFound ("File '" ++ file_path ++ "' not found.")))
  else (deserialize file_path, none)

end Registry

/-! ### Naming grammars (`BulkArchiveHandler` / `SubmissionHandler`) -/

/-- ASCII decimal digit (the regex class `\d` on the ASCII names these
grammars accept). -/
def isDigitChar (c : Char) : Bool :=
  '0' ≤ c ∧ c ≤ '9'

/-- Python `str.isdigit` (ASCII granularity): nonempty and all digits. -/
def str_isdigit (s : String) : Bool :=
  s ≠ "" && s.data.all isDigitChar

/-- Python `int` on a nonempty decimal digit string. -/
def str_toNat (s : String) : Nat :=
  s.data.foldl (fun acc c => acc * 10 + (c.toNat - 48)) 0

namespace BulkArchiveHandler

/-- `BulkArchiveHandler.parse_bulk_archive_filename`: full match of the
basename against `^arXiv_src_(\d{2})(\d{2})_(\d{3})\.tar$`. -/
def parse_bulk_archive_filename (filename : String) : Option (String × String × String) :=
  let basename := get_file_basename filename
  match basename.data with
  | 'a' :: 'r' :: 'X' :: 'i' :: 'v' :: '_' :: 's' :: 'r' :: 'c' :: '_' ::
      y1 :: y2 :: m1 :: m2 :: '_' :: s1 :: s2 :: s3 :: '.' :: 't' :: 'a' :: 'r' :: [] =>
    if [y1, y2, m1, m2, s1, s2, s3].all isDigitChar then
      some (⟨[y1, y2]⟩, ⟨[m1, m2]⟩, ⟨[s1, s2, s3]⟩)
    else none
  | _ => none

/-- `BulkArchiveHandler.is_bulk_archive_filename`: pattern match plus month in
`[1, 12]`. -/
def is_bulk_archive_filename (filename : String) : Bool :=
  match parse_bulk_archive_filename filename with
  | some (_, mm, _) =>
    str_isdigit mm && decide (1 ≤ str_toNat mm) && decide (str_toNat mm ≤ 12)
  | none => false

/-- `BulkArchiveHandler.generate_uri_for_bulk_archive_filename`. -/
def generate_uri_for_bulk_archive_filename (filename : String) : Except Err String :=
  if ¬ is_bulk_archive_filename filename then
    .error (.valueError ("Filename " ++ filename ++ " does not match arXiv bulk archive naming scheme"))
  else .ok ("s3://arxiv/src/" ++ get_file_basename filename)

end BulkArchiveHandler

namespace SubmissionHandler

/-- `SubmissionHandler.parse_old_style_submission_filename`: extension `.gz`
or `.pdf` and stem matching `^([a-z\-]+)(\d{2})(\d{2})(\d{3})$`.  The category
class and the digit class are disjoint, so the regex split is the maximal
lowercase-or-hyphen run followed by exactly seven digits. -/
def parse_old_style_submission_filename (filename : String) :
    Option (String × String × String × String) :=
  let basename := get_file_basename filename
  let (basename_no_ext, ext) := splitextBase basename
  if ext = ".gz" ∨ ext = ".pdf" then
    let cs := basename_no_ext.data
    let category := cs.takeWhile (fun c => ('a' ≤ c ∧ c ≤ 'z') ∨ c = '-')
    let digits := cs.drop category.length
    if category ≠ [] ∧ digits.length = 7 ∧ digits.all isDigitChar then
      some (⟨category⟩, ⟨digits.take 2⟩, ⟨(digits.drop 2).take 2⟩, ⟨digits.drop 4⟩)
    else none
  else none

/-- `SubmissionHandler.parse_current_style_submission_filename`: extension
`.gz` or `.pdf` and stem matching `^(\d{2})(\d{2})\.(\d{4,5})$`. -/
def parse_current_style_submission_filename (filename : String) :
    Option (String × String × String) :=
  let basename := get_file_basename filename
  let (basename_no_ext, ext) := splitextBase basename
  if ext = ".gz" ∨ ext = ".pdf" then
    match basename_no_ext.data with
    | a :: b :: c :: d :: '.' :: num =>
      if [a, b, c, d].all isDigitChar ∧ (num.length = 4 ∨ num.length = 5) ∧ num.all isDigitChar then
        some (⟨[a, b]⟩, ⟨[c, d]⟩, ⟨num⟩)
      else none
    | _ => none
  else none

/-- `SubmissionHandler.is_submission_filename`: old grammar first, then the
current grammar, each with month in `[1, 12]`; a month check failure on a
matched old-style name does not fall through to the current grammar. -/
def is_submission_filename (filename : String) : Bool :=
  match parse_old_style_submission_filename filename with
  | some (_, _, mm, _) =>
    str_isdigit mm && decide (1 ≤ str_toNat mm) && decide (str_toNat mm ≤ 12)
  | none =>
    match parse_current_style_submission_filename filename with
    | some (_, mm, _) =>
      str_isdigit mm && decide (1 ≤ str_toNat mm) && decide (str_toNat mm ≤ 12)
    | none => false

/-- `SubmissionHandler.generate_url_for_submission_filename`. -/
def generate_url_for_submission_filename (filename : String) : Except Err String :=
  match parse_old_style_submission_filename filename with
  | some (category, yy, mm, number) =>
    .ok ("https://arxiv.org/abs/" ++ category ++ "/" ++ yy ++ mm ++ number)
  | none =>
    match parse_current_style_submission_filename filename with
    | some (yy, mm, number) =>
      .ok ("https://arxiv.org/abs/" ++ yy ++ mm ++ "." ++ number)
    | none => .error (.valueError ("Invalid arXiv submission filename: " ++ filename))

end SubmissionHandler

/-! ### `FileHandler` (file/file_handler.py): extension dispatch and metadata -/

/-- The `.value` strings of the `FileType` enumeration. -/
def FileType.value : FileType → String
  | .unknown => "UNKNOWN"
  | .archive_gz => "ARCHIVE_GZ"
  | .archive_tar => "ARCHIVE_TAR"
  | .archive_tgz => "ARCHIVE_TGZ"
  | .image_bmp => "IMAGE_BMP"
  | .image_gif => "IMAGE_GIF"
  | .image_ico => "IMAGE_ICO"
  | .image_jpg => "IMAGE_JPG"
  | .image_png => "IMAGE_PNG"
  | .image_svg => "IMAGE_SVG"
  | .image_tiff => "IMAGE_TIFF"
  | .pdf => "PDF"
  | .postscript_ps => "POSTSCRIPT_PS"
  | .postscript_eps => "POSTSCRIPT_EPS"
  | .postscript_epsf => "POSTSCRIPT_EPSF"
  | .postscript_epsi => "POSTSCRIPT_EPSI"
  | .xml => "XML"
  | .tex_aux => "TEX_AUX"
  | .tex_bbl => "TEX_BBL"
  | .tex_bib => "TEX_BIB"
  | .tex_bst => "TEX_BST"
  | .tex_clo => "TEX_CLO"
  | .tex_cls => "TEX_CLS"
  | .tex_dvi => "TEX_DVI"
  | .tex_fig => "TEX_FIG"
  | .tex_log => "TEX_LOG"
  | .tex_pstex => "TEX_PSTEX"
  | .tex_pstex_t => "TEX_PSTEX_T"
  | .tex_sty => "TEX_STY"
  | .tex_synctex => "TEX_SYNCTEX"
  | .tex_tex => "TEX_TEX"
  | .tex_latex_209_main => "TEX_LATEX_209_MAIN"
  | .tex_latex_2e_main => "TEX_LATEX_2E_MAIN"
  | .tex_tikz => "TEX_TIKZ"
  | .tex_toc => "TEX_TOC"

namespace FileHandler

/-- Union of the extension tables of the handlers whose sources are part of
the embedded fragment (`ArchiveHandler`, `ImageHandler`, `TexHandler`).  Their
extension keys are pairwise disjoint, so the handler list that
`_get_file_handlers_from_extension` builds holds at most one of them per
extension. -/
def knownExtTypes : String → Option (List FileType)
  | ".gz" => some [.archive_gz, .archive_tgz]
  | ".tar" => some [.archive_tar]
  | ".tgz" => some [.archive_tgz]
  | ".bmp" => some [.image_bmp]
  | ".gif" => some [.image_gif]
  | ".ico" => some [.image_ico]
  | ".jpeg" => some [.image_jpg]
  | ".jpg" => some [.image_jpg]
  | ".png" => some [.image_png]
  | ".tif" => some [.image_tiff]
  | ".tiff" => some [.image_tiff]
  | ".aux" => some [.tex_aux]
  | ".bbl" => some [.tex_bbl]
  | ".bib" => some [.tex_bib]
  | ".bst" => some [.tex_bst]
  | ".clo" => some [.tex_clo]
  | ".cls" => some [.tex_cls]
  | ".dvi" => some [.tex_dvi]
  | ".fig" => some [.tex_fig]
  | ".log" => some [.tex_log]
  | ".pstex" => some [.tex_pstex]
  | ".pstex_t" => some [.tex_pstex_t]
  | ".sty" => some [.tex_sty]
  | ".synctex" => some [.tex_synctex]
  | ".tex" => some [.tex_tex, .tex_latex_209_main, .tex_latex_2e_main]
  | ".tikz" => some [.tex_tikz]
  | ".toc" => some [.tex_toc]
  | _ => none

/-- `FileHandler.get_file_type_from_extension`: empty extension yields an
empty list, otherwise the concatenated tables of the handlers owning the
lower-cased extension; extensions owned by the pdf/postscript/xml handlers
(sources not under `src/`) are answered by the `extraExtTypes` observation. -/
def get_file_type_from_extension (env : Env) (file_path : String) : List FileType :=
  let file_extension := strLower (get_file_extension file_path)
  if file_extension = "" then []
  else
    match knownExtTypes file_extension with
    | some l => l
    | none => env.extraExtTypes file_extension

/-- `FileHandler.get_file_type_from_format` (with the default
`use_extension=True`): the handlers registered for the archive extensions are
exactly `[ArchiveHandler]`, whose classifier is embedded; for every other
extension the outcome of the remaining handlers' content probes is the
`otherFormatResult` observation. -/
def get_file_type_from_format (env : Env) (file_path : String) : Except Err FileType :=
  if ¬ env.isFile file_path then .error (.fileNotFound "file not found")
  else
    let ext := strLower (get_file_extension file_path)
    if ext = ".gz" ∨ ext = ".tar" ∨ ext = ".tgz" then
      ArchiveHandler.get_file_type_from_format env file_path
    else .ok (env.otherFormatResult file_path)

/-- The metadata record produced by `FileHandler.get_metadata` with the hash
types `[MD5, SHA256]` used by both registrars. -/
structure Metadata where
  filename : String
  size_bytes : Nat
  hash_md5 : String
  hash_sha256 : String
  timestamp_iso : String
  file_type : FileType
deriving Repr, DecidableEq

/-- `FileHandler.get_metadata`. -/
def get_metadata (env : Env) (file_path : String) : Except Err Metadata :=
  if ¬ env.isFile file_path then .error (.fileNotFound "file not found")
  else
    match get_file_type_from_format env file_path with
    | .error e => .error e
    | .ok ft =>
      .ok { filename := get_file_basename file_path,
            size_bytes := env.sizeBytes file_path,
            hash_md5 := env.md5 file_path,
            hash_sha256 := env.sha256 file_path,
            timestamp_iso := env.timestampIso file_path,
            file_type := ft }

end FileHandler

/-! ### Validation pipelines (`SubmissionHandler.check_submission`,
`BulkArchiveHandler.check_bulk_archive`) -/

namespace SubmissionHandler

/-- TeX and LaTeX main-file types (`tex_types` in
`get_submission_type_using_extension`). -/
def tex_types : List FileType :=
  [.tex_tex, .tex_latex_209_main, .tex_latex_2e_main]

/-- The closed set of TeX-supporting file types. -/
def tex_supporting_types : List FileType :=
  [.tex_log, .tex_fig, .image_gif, .image_png, .image_jpg, .tex_bib, .tex_clo, .tex_bst,
   .tex_toc, .tex_cls, .tex_bbl, .postscript_epsf, .tex_pstex_t, .tex_pstex, .tex_sty,
   .tex_latex_209_main, .tex_latex_2e_main, .tex_tex, .pdf, .postscript_ps,
   .postscript_epsi, .postscript_eps]

/-- `SubmissionHandler.get_submission_type_using_extension`: collect the set
of member file types (an empty per-file answer contributes `unknown`), then
classify all-PostScript, all-PDF, TeX-with-supporting-files, else unknown. -/
def get_submission_type_using_extension (env : Env) (submission_file_list : List String) :
    SubmissionType :=
  let file_types : Finset FileType := submission_file_list.foldl
    (fun acc filename =>
      let current := FileHandler.get_file_type_from_extension env filename
      if current.length = 0 then acc ∪ {FileType.unknown} else acc ∪ current.toFinset) ∅
  if file_types = {FileType.postscript_ps} then SubmissionType.postscript
  else if file_types = {FileType.pdf} then SubmissionType.pdf
  else if 0 < (tex_types.toFinset ∩ file_types).card then
    if (file_types \ tex_supporting_types.toFinset).card = 0 then SubmissionType.tex
    else SubmissionType.unknown
  else SubmissionType.unknown

/-- The allowed submission file types (GZ, TGZ, PDF). -/
def allowed_file_types : List FileType :=
  [.archive_gz, .archive_tgz, .pdf]

/-- The allowed archive submission file types (GZ, TGZ). -/
def allowed_archive_file_types : List FileType :=
  [.archive_gz, .archive_tgz]

/-- `SubmissionHandler.check_submission`: name pattern, existence, extension
and format admissibility and agreement, then the extraction-safety check for
archive-typed files; each stage runs only when the previous stages found no
error. -/
def check_submission (env : Env) (file_path : String) : Except Err (List String) :=
  let error_list := if ¬ is_submission_filename file_path then
      ["Filename " ++ file_path ++ " does not match submission pattern"] else []
  let error_list := if error_list = [] ∧ ¬ env.isFile file_path then
      error_list ++ ["File " ++ file_path ++ " not found"] else error_list
  if error_list = [] then
    let file_types_by_extension := FileHandler.get_file_type_from_extension env file_path
    match FileHandler.get_file_type_from_format env file_path with
    | .error e => .error e
    | .ok file_type_by_format =>
      let error_list :=
        if ¬ file_types_by_extension.any (fun t => t ∈ allowed_file_types) then
          error_list ++ ["File extension type is not allowed"]
        else if file_type_by_format ∉ allowed_file_types then
          error_list ++ ["File type " ++ file_type_by_format.value ++ " not allowed"]
        else if file_type_by_format ∉ file_types_by_extension then
          error_list ++ ["File format does not match file extension"]
        else error_list
      if error_list = [] ∧ file_type_by_format ∈ allowed_archive_file_types then
        match ArchiveHandler.check_extract_possible env file_path "/" with
        | .error e => .error e
        | .ok archive_errors => .ok (error_list ++ archive_errors)
      else .ok error_list
  else .ok error_list

end SubmissionHandler

namespace BulkArchiveHandler

/-- `BulkArchiveHandler.check_bulk_archive`: name pattern, existence,
tar-extension and tar-format checks, extraction safety against the default
extract path `/`, and the member-name grammar check; each stage runs only
when the previous stages found no error. -/
def check_bulk_archive (env : Env) (file_path : String) : Except Err (List String) := do
  let error_list := if ¬ is_bulk_archive_filename file_path then
      ["Filename " ++ file_path ++ " does not match bulk archive pattern"] else []
  let error_list := if error_list = [] ∧ ¬ env.isFile file_path then
      error_list ++ ["File " ++ file_path ++ " not found"] else error_list
  let error_list ←
    if error_list = [] then
      if FileType.archive_tar ∉ FileHandler.get_file_type_from_extension env file_path then
        pure (error_list ++ ["File extension is not tar"])
      else do
        let ft ← FileHandler.get_file_type_from_format env file_path
        if FileType.archive_tar ≠ ft then pure (error_list ++ ["File format is not tar"])
        else pure error_list
    else pure error_list
  let error_list ←
    if error_list = [] then do
      let archive_errors ← ArchiveHandler.check_extract_possible env file_path "/"
      pure (error_list ++ archive_errors)
    else pure error_list
  if error_list = [] then do
    let archive_contents ← ArchiveHandler.list_contents env file_path
    let invalid_entries := archive_contents.filter
      (fun entry => ¬ SubmissionHandler.is_submission_filename entry)
    if invalid_entries ≠ [] then
      pure (error_list ++ ["Archive entries do not match submission filename pattern: " ++
        String.intercalate ", " invalid_entries])
    else pure error_list
  else pure error_list

end BulkArchiveHandler

/-! ### Registry entries and the two registrars -/

/-- A bulk-archive registry entry: `{'metadata': ..., 'origin': {'uri': ...}}`. -/
structure BulkEntry where
  metadata : FileHandler.Metadata
  origin_uri : String
deriving Repr, DecidableEq

/-- The metadata dict of a submission entry: the base file metadata with the
`submission_type_by_extension` field added by
`SubmissionHandler.generate_registry_entry`. -/
structure SubMetadata where
  base : FileHandler.Metadata
  submission_type_by_extension : SubmissionType
deriving Repr, DecidableEq

/-- A submission registry entry as produced by
`SubmissionHandler.generate_registry_entry` and (possibly) extended by
`register_submission` with a `diagnostics.error_log`; candidates of this shape
are also what a conflict appends to `key_conflicts`. -/
structure SubEntryGen where
  metadata : SubMetadata
  origin_url : String
  origin_bulk_archive_key : String
  diagnostics_error_log : Option (List String)
deriving Repr, DecidableEq

/-- The diagnostics dict of a stored submission entry: an error log and the
optional `key_conflicts` list (absent until the first conflict sets it). -/
structure SubDiagnostics where
  error_log : List String
  key_conflicts : Option (List SubEntryGen)
deriving Repr, DecidableEq

/-- A submission registry entry as stored in the registry. -/
structure SubEntry where
  metadata : SubMetadata
  origin_url : String
  origin_bulk_archive_key : String
  diagnostics : Option SubDiagnostics
deriving Repr, DecidableEq

/-- View of a freshly generated candidate entry as a stored entry. -/
def SubEntryGen.toEntry (g : SubEntryGen) : SubEntry :=
  { metadata := g.metadata,
    origin_url := g.origin_url,
    origin_bulk_archive_key := g.origin_bulk_archive_key,
    diagnostics := g.diagnostics_error_log.map
      (fun el => { error_log := el, key_conflicts := none }) }

namespace BulkArchiveHandler

/-- `BulkArchiveHandler.generate_registry_entry`: SHA256 key, metadata/origin
entry, and the collected validation errors. -/
def generate_registry_entry (env : Env) (file_path : String) :
    Except Err (String × BulkEntry × List String) := do
  if ¬ env.isFile file_path then
    .error (.fileNotFound ("File '" ++ file_path ++ "' not found."))
  else do
    let bulk_archive_errors ← check_bulk_archive env file_path
    let uri ← generate_uri_for_bulk_archive_filename file_path
    let metadata ← FileHandler.get_metadata env file_path
    let registry_key := metadata.hash_sha256
    pure (registry_key, { metadata := metadata, origin_uri := uri }, bulk_archive_errors)

end BulkArchiveHandler

namespace SubmissionHandler

/-- `SubmissionHandler.generate_registry_entry`: SHA256 key, entry with the
inferred submission type in its metadata, and the collected validation errors
(with the `"Unknown submission type"` diagnostic added when no other error
exists and the type is unknown). -/
def generate_registry_entry (env : Env) (file_path bulk_archive_key : String) :
    Except Err (String × SubEntryGen × List String) := do
  if ¬ env.isFile file_path then
    .error (.fileNotFound ("File '" ++ file_path ++ "' not found."))
  else do
    let submission_errors ← check_submission env file_path
    let url ← generate_url_for_submission_filename file_path
    let metadata ← FileHandler.get_metadata env file_path
    let registry_key := metadata.hash_sha256
    let submission_type ←
      if 0 < submission_errors.length then pure SubmissionType.unknown
      else if metadata.file_type = FileType.pdf then pure SubmissionType.pdf
      else if metadata.file_type = FileType.archive_gz ∨ metadata.file_type = FileType.archive_tgz then do
        let archive_contents ← ArchiveHandler.list_contents env file_path
        pure (get_submission_type_using_extension env archive_contents)
      else pure SubmissionType.unknown
    let submission_errors :=
      if submission_errors.length = 0 ∧ submission_type = SubmissionType.unknown then
        submission_errors ++ ["Unknown submission type"]
      else submission_errors
    pure (registry_key,
      { metadata := { base := metadata, submission_type_by_extension := submission_type },
        origin_url := url,
        origin_bulk_archive_key := bulk_archive_key,
        diagnostics_error_log := none },
      submission_errors)

end SubmissionHandler

namespace BulkArchiveRegistry

/-- `BulkArchiveRegistry.find_bulk_archive_filename`: first registry key whose
entry's metadata filename equals the basename, if any. -/
def find_bulk_archive_filename (r : Reg BulkEntry) (file_path : String) : Option String :=
  let basename := get_file_basename file_path
  let registry_keys := (r.filter (fun kv => kv.2.metadata.filename = basename)).map
    (fun kv => kv.1)
  registry_keys.head?

/-- `BulkArchiveRegistry.register_bulk_archive`: existence and name checks,
already-registered-filename check, entry generation, fail-closed error check,
duplicate-key resolution, then the base-class write.  Returns the post-state
together with the raised exception, if any. -/
def register_bulk_archive (env : Env) (r : Reg BulkEntry) (file_path : String) :
    Reg BulkEntry × Option Err :=
  if ¬ env.isFile file_path then
    (r, some (.fileNotFound ("File '" ++ file_path ++ "' not found.")))
  else if ¬ BulkArchiveHandler.is_bulk_archive_filename file_path then
    (r, some (.valueError ("File '" ++ file_path ++ "' is not a valid bulk archive filename.")))
  else if (find_bulk_archive_filename r file_path).isSome then
    (r, some (.valueError ("File '" ++ file_path ++ "' is already registered.")))
  else
    match BulkArchiveHandler.generate_registry_entry env file_path with
    | .error e => (r, some e)
    | .ok (registry_key, registry_entry, bulk_archive_errors) =>
      if 0 < bulk_archive_errors.length then
        (r, some (.valueError ("Bulk archive '" ++ file_path ++ "' has errors: " ++
          String.intercalate ", " bulk_archive_errors)))
      else if Registry.is_key_present r registry_key then
        if Registry.get_entry? r registry_key ≠ some registry_entry then
          (r, some (.keyError ("Bulk archive with key '" ++ registry_key ++
            "' is already registered.")))
        else (r, none)
      else
        match Registry.add_entry r registry_key registry_entry with
        | .error e => (r, some e)
        | .ok r2 => (r2, none)

end BulkArchiveRegistry

namespace SubmissionRegistry

/-- The duplicate-key branch of `register_submission`, mutating the existing
entry in place: materialise the diagnostics dict and its error log, add the
one-time `'key conflicts'` marker (resetting `key_conflicts` to a fresh list
when the marker is new), then append the rejected candidate.  When the marker
is already present but the `key_conflicts` key is missing, the append raises
`KeyError` after the `setdefault` calls have materialised the dict. -/
def recordConflict (existing_entry : SubEntry) (registry_entry : SubEntryGen) :
    SubEntry × Option Err :=
  let diagnostics := existing_entry.diagnostics.getD { error_log := [], key_conflicts := none }
  if "key conflicts" ∈ diagnostics.error_log then
    match diagnostics.key_conflicts with
    | none => ({ existing_entry with diagnostics := some diagnostics }, some (.keyError "'key_conflicts'"))
    | some conflicts =>
      let d : SubDiagnostics :=
        { error_log := diagnostics.error_log,
          key_conflicts := some (conflicts ++ [registry_entry]) }
      ({ existing_entry with diagnostics := some d }, none)
  else
    let d : SubDiagnostics :=
      { error_log := diagnostics.error_log ++ ["key conflicts"],
        key_conflicts := some [registry_entry] }
    ({ existing_entry with diagnostics := some d }, none)

/-- `SubmissionRegistry.register_submission`: existence and name checks,
entry generation, fail-open attachment of validation errors to the entry's
diagnostics, duplicate-key resolution (silent no-op on identical metadata,
conflict recording otherwise), then the base-class write. -/
def register_submission (env : Env) (r : Reg SubEntry) (file_path bulk_archive_key : String) :
    Reg SubEntry × Option Err :=
  if ¬ env.isFile file_path then
    (r, some (.fileNotFound ("File '" ++ file_path ++ "' not found.")))
  else if ¬ SubmissionHandler.is_submission_filename file_path then
    (r, some (.valueError ("File '" ++ file_path ++ "' is not a valid submission filename.")))
  else
    match SubmissionHandler.generate_registry_entry env file_path bulk_archive_key with
    | .error e => (r, some e)
    | .ok (registry_key, generated, submission_errors) =>
      let registry_entry :=
        if 0 < submission_errors.length then
          { generated with diagnostics_error_log := some submission_errors }
        else generated
      if Registry.is_key_present r registry_key then
        match Registry.get_entry? r registry_key with
        | none => (r, none)
        | some existing_entry =>
          if existing_entry.metadata ≠ registry_entry.metadata then
            let (updated, e) := recordConflict existing_entry registry_entry
            (Registry.updateAt r registry_key updated, e)
          else (r, none)
      else
        match Registry.add_entry r registry_key registry_entry.toEntry with
        | .error e => (r, some e)
        | .ok r2 => (r2, none)

end SubmissionRegistry

/-! ## Theorems -/

/-- C5: for every existing file, `is_tar_format` holds iff the file parses as
tar and not as gzip, `is_gzip_format` iff it parses as gzip and not as tar,
`is_tgz_format` iff it parses as both, `get_file_type_from_format` returns the
unknown type iff it parses as neither, and the three predicates are pairwise
mutually exclusive. -/
theorem archive_format_partition (env : Env) (p : String) (h : env.isFile p = true) :
    ArchiveHandler.is_tar_format env p = .ok (env.tarParses p && !env.gzipParses p) ∧
    ArchiveHandler.is_gzip_format env p = .ok (env.gzipParses p && !env.tarParses p) ∧
    ArchiveHandler.is_tgz_format env p = .ok (env.tarParses p && env.gzipParses p) ∧
    (ArchiveHandler.get_file_type_from_format env p = .ok .unknown ↔
      env.tarParses p = false ∧ env.gzipParses p = false) ∧
    ¬ (ArchiveHandler.is_tar_format env p = .ok true ∧
       ArchiveHandler.is_gzip_format env p = .ok true) ∧
    ¬ (ArchiveHandler.is_tar_format env p = .ok true ∧
       ArchiveHandler.is_tgz_format env p = .ok true) ∧
    ¬ (ArchiveHandler.is_gzip_format env p = .ok true ∧
       ArchiveHandler.is_tgz_format env p = .ok true) := by
  cases ht : env.tarParses p <;> cases hg : env.gzipParses p <;>
    simp [ArchiveHandler.is_tar_format, ArchiveHandler.is_gzip_format,
      ArchiveHandler.is_tgz_format, ArchiveHandler.get_file_type_from_format, h, ht, hg,
      bind, Except.bind, pure, Except.pure]

/-- Environment with a universally tar-parsing file system, used to
instantiate the classification theorem. -/
def envAllTar : Env :=
  { isFile := fun _ => true, isDirectory := fun _ => true,
    tarParses := fun _ => true, gzipParses := fun _ => false,
    tarMembers := fun _ => [], fileBytes := fun _ => [],
    sizeBytes := fun _ => 0, md5 := fun _ => "", sha256 := fun _ => "",
    timestampIso := fun _ => "", cwdComps := [],
    otherFormatResult := fun _ => .unknown, extraExtTypes := fun _ => [] }

/-- Witness: the classification theorem applied to a concrete tar-only file. -/
theorem archive_format_partition_witness :
    envAllTar.isFile "f" = true ∧
    ArchiveHandler.is_tar_format envAllTar "f" =
      .ok (envAllTar.tarParses "f" && !envAllTar.gzipParses "f") :=
  ⟨rfl, (archive_format_partition envAllTar "f" rfl).1⟩

/-- C10: `Registry.load` on a nonexistent path raises a not-found error but
clears the registry first, so after the failed call the registry is empty
rather than retaining its previous entries. -/
theorem load_missing_file_clears (α : Type) (env : Env) (deserialize : String → Reg α)
    (r : Reg α) (p : String) (h : env.isFile p = false) :
    Registry.load env deserialize r p =
      ([], some (.fileNotFound ("File '" ++ p ++ "' not found."))) := by
  simp [Registry.load, Registry.clear, h]

/-- Environment in which no file exists. -/
def envNoFiles : Env :=
  { isFile := fun _ => false, isDirectory := fun _ => false,
    tarParses := fun _ => false, gzipParses := fun _ => false,
    tarMembers := fun _ => [], fileBytes := fun _ => [],
    sizeBytes := fun _ => 0, md5 := fun _ => "", sha256 := fun _ => "",
    timestampIso := fun _ => "", cwdComps := [],
    otherFormatResult := fun _ => .unknown, extraExtTypes := fun _ => [] }

/-- Witness: loading a missing path empties a previously populated registry
and reports the not-found error. -/
theorem load_missing_file_clears_witness :
    envNoFiles.isFile "missing.json" = false ∧
    Registry.load envNoFiles (fun _ => ([("a", 1)] : Reg Nat)) [("k", 7)] "missing.json" =
      ([], some (.fileNotFound ("File '" ++ "missing.json" ++ "' not found."))) :=
  ⟨rfl, load_missing_file_clears Nat envNoFiles _ _ _ rfl⟩

/-- Two finsets are equal exactly when both set differences are empty. -/
theorem sdiff_pair_empty_iff {s t : Finset String} :
    (s \ t = ∅ ∧ t \ s = ∅) ↔ s = t := by
  rw [Finset.sdiff_eq_empty_iff_subset, Finset.sdiff_eq_empty_iff_subset]
  exact ⟨fun ⟨h1, h2⟩ => Finset.Subset.antisymm h1 h2, fun h => by simp [h]⟩

/-- Evaluation of `is_newer_than` when the two timestamps are equal: return
`False` on equal key sets, raise otherwise. -/
theorem is_newer_than_eq_timestamps (a b : Manifest)
    (ht : a.manifest_timestamp_iso = b.manifest_timestamp_iso) :
    a.is_newer_than b = if a.list_keys = b.list_keys then .ok false
      else .error (.valueError "Inconsistent manifest metadata, manifests with identical times must have identical keys") := by
  have hsd1 : a.list_keys \ (a.list_keys ∩ b.list_keys) = a.list_keys \ b.list_keys :=
    Finset.sdiff_inter_self_left a.list_keys b.list_keys
  have hsd2 : b.list_keys \ (a.list_keys ∩ b.list_keys) = b.list_keys \ a.list_keys := by
    rw [Finset.inter_comm]
    exact Finset.sdiff_inter_self_left b.list_keys a.list_keys
  simp only [Manifest.is_newer_than, hsd1, hsd2, if_pos ht]
  by_cases hk : a.list_keys = b.list_keys
  · rw [if_pos hk, if_neg]
    simp [hk]
  · rw [if_neg hk, if_pos]
    rw [Finset.card_pos, Finset.card_pos, Finset.nonempty_iff_ne_empty,
      Finset.nonempty_iff_ne_empty]
    by_contra hc
    push_neg at hc
    exact hk (sdiff_pair_empty_iff.mp ⟨hc.1, hc.2⟩)

/-- Evaluation of `is_newer_than` when the two timestamps differ: the newer
side must add a key and must not drop a key, and the returned boolean says
whether the receiver is the newer side. -/
theorem is_newer_than_ne_timestamps (a b : Manifest)
    (ht : a.manifest_timestamp_iso ≠ b.manifest_timestamp_iso) :
    a.is_newer_than b =
      (if newerSideKeys a b \ olderSideKeys a b = ∅ then
        .error (.valueError "Inconsistent manifest metadata, newer manifest must have at least one new entry")
      else if olderSideKeys a b \ newerSideKeys a b ≠ ∅ then
        .error (.valueError "Inconsistent manifest metadata, newer manifest cannot have entries deleted")
      else .ok (decide (b.manifest_timestamp_iso < a.manifest_timestamp_iso))) := by
  have hsd1 : a.list_keys \ (a.list_keys ∩ b.list_keys) = a.list_keys \ b.list_keys :=
    Finset.sdiff_inter_self_left a.list_keys b.list_keys
  have hsd2 : b.list_keys \ (a.list_keys ∩ b.list_keys) = b.list_keys \ a.list_keys := by
    rw [Finset.inter_comm]
    exact Finset.sdiff_inter_self_left b.list_keys a.list_keys
  by_cases hlt : b.manifest_timestamp_iso < a.manifest_timestamp_iso
  · simp only [Manifest.is_newer_than, TimeService.is_iso_timestamp_newer, newerSideKeys,
      olderSideKeys, if_neg ht, if_pos hlt, hsd1, hsd2, hlt, decide_True,
      Finset.card_eq_zero, Finset.card_pos, Finset.nonempty_iff_ne_empty, if_true]
  · simp only [Manifest.is_newer_than, TimeService.is_iso_timestamp_newer, newerSideKeys,
      olderSideKeys, if_neg ht, if_neg hlt, hsd1, hsd2, hlt, decide_False,
      Finset.card_eq_zero, Finset.card_pos, Finset.nonempty_iff_ne_empty, if_false,
      Bool.false_eq_true]

/-- C7: `is_newer_than` raises exactly when the timestamps are equal but the
key sets differ, or the timestamps differ and the newer side has no added key
or is missing a key of the older side; equal timestamps with equal key sets
return `False`, and differing timestamps under the growth conditions return
whether the receiver's timestamp is the newer. -/
theorem is_newer_than_spec (a b : Manifest) :
    ((∃ e, a.is_newer_than b = .error e) ↔
      ((a.manifest_timestamp_iso = b.manifest_timestamp_iso ∧ a.list_keys ≠ b.list_keys) ∨
       (a.manifest_timestamp_iso ≠ b.manifest_timestamp_iso ∧
         (newerSideKeys a b \ olderSideKeys a b = ∅ ∨
          olderSideKeys a b \ newerSideKeys a b ≠ ∅)))) ∧
    (a.manifest_timestamp_iso = b.manifest_timestamp_iso → a.list_keys = b.list_keys →
      a.is_newer_than b = .ok false) ∧
    (a.manifest_timestamp_iso ≠ b.manifest_timestamp_iso →
      newerSideKeys a b \ olderSideKeys a b ≠ ∅ →
      olderSideKeys a b \ newerSideKeys a b = ∅ →
      a.is_newer_than b =
        .ok (decide (b.manifest_timestamp_iso < a.manifest_timestamp_iso))) := by
  by_cases ht : a.manifest_timestamp_iso = b.manifest_timestamp_iso
  · rw [is_newer_than_eq_timestamps a b ht]
    refine ⟨?_, fun _ hk => by simp [hk], fun hne => absurd ht hne⟩
    by_cases hk : a.list_keys = b.list_keys
    · simp [hk, ht]
    · simp [hk, ht]
  · rw [is_newer_than_ne_timestamps a b ht]
    refine ⟨?_, fun hteq => absurd hteq ht, fun _ h1 h2 => by simp [h1, h2]⟩
    by_cases h1 : newerSideKeys a b \ olderSideKeys a b = ∅
    · simp [h1, ht]
    · by_cases h2 : olderSideKeys a b \ newerSideKeys a b = ∅
      · simp [h1, h2, ht]
      · simp [h1, h2, ht]

/-- A NUL-terminated field parses to the bytes before the sentinel. -/
theorem takeUntilZero_append (name rest : List Nat) (h : 0 ∉ name) :
    ArchiveHandler.takeUntilZero (name ++ 0 :: rest) = some (name, rest) := by
  induction name with
  | nil => simp [ArchiveHandler.takeUntilZero]
  | cons b bs ih =>
    have hb : b ≠ 0 := fun hb => h (by simp [hb])
    have hbs : 0 ∉ bs := fun hm => h (List.mem_cons_of_mem _ hm)
    simp [ArchiveHandler.takeUntilZero, hb, ih hbs]

/-- Unfolding of `list_gzip_bytes` on a byte list that covers the ten-byte
header. -/
theorem list_gzip_bytes_cons (id1 id2 compression flags m1 m2 m3 m4 xf osb : Nat)
    (rest : List Nat) :
    ArchiveHandler.list_gzip_bytes
      (id1 :: id2 :: compression :: flags :: m1 :: m2 :: m3 :: m4 :: xf :: osb :: rest) =
      (if id1 = 0x1F ∧ id2 = 0x8B ∧ compression = 0x08 then
        match (if flags.land (1 <<< 2) ≠ 0 then
            match rest with
            | xl1 :: xl2 :: r => Except.ok (r.drop (xl1 + 256 * xl2))
            | _ => Except.error (Err.structError "unpack requires a buffer of 2 bytes")
          else (Except.ok rest : Except Err (List Nat))) with
        | .error e => .error e
        | .ok r =>
          if flags.land (1 <<< 3) ≠ 0 then
            match ArchiveHandler.takeUntilZero r with
            | some (nm, _) => .ok [nm]
            | none => .error (.nonTermination "read(1) at EOF never yields the NUL sentinel")
          else .ok []
      else .ok []) := rfl

/-- A failed magic or compression-method check yields an empty name list, not
an error. -/
theorem list_gzip_bytes_invalid (id1 id2 compression flags m1 m2 m3 m4 xf osb : Nat)
    (rest : List Nat) (hbad : ¬ (id1 = 0x1F ∧ id2 = 0x8B ∧ compression = 0x08)) :
    ArchiveHandler.list_gzip_bytes
      (id1 :: id2 :: compression :: flags :: m1 :: m2 :: m3 :: m4 :: xf :: osb :: rest) =
      .ok [] := by
  rw [list_gzip_bytes_cons, if_neg hbad]

/-- A valid header with the filename flag set and no extra field yields the
NUL-terminated name field. -/
theorem list_gzip_bytes_name_noextra (flags m1 m2 m3 m4 xf osb : Nat) (name rest : List Nat)
    (hflag3 : flags.land (1 <<< 3) ≠ 0) (hflag2 : flags.land (1 <<< 2) = 0) (hname : 0 ∉ name) :
    ArchiveHandler.list_gzip_bytes
      (0x1F :: 0x8B :: 0x08 :: flags :: m1 :: m2 :: m3 :: m4 :: xf :: osb :: (name ++ 0 :: rest)) =
      .ok [name] := by
  rw [list_gzip_bytes_cons, if_pos ⟨rfl, rfl, rfl⟩]
  have h2 : flags.land 4 = 0 := by simpa using hflag2
  have h3 : flags.land 8 ≠ 0 := by simpa using hflag3
  simp [h2, h3, takeUntilZero_append name rest hname]

/-- A valid header with the filename flag set skips the length-prefixed extra
field before reading the name. -/
theorem list_gzip_bytes_name_extra (flags m1 m2 m3 m4 xf osb xl1 xl2 : Nat)
    (extra name rest : List Nat) (hlen : extra.length = xl1 + 256 * xl2)
    (hflag3 : flags.land (1 <<< 3) ≠ 0) (hflag2 : flags.land (1 <<< 2) ≠ 0) (hname : 0 ∉ name) :
    ArchiveHandler.list_gzip_bytes
      (0x1F :: 0x8B :: 0x08 :: flags :: m1 :: m2 :: m3 :: m4 :: xf :: osb ::
        xl1 :: xl2 :: (extra ++ (name ++ 0 :: rest))) =
      .ok [name] := by
  rw [list_gzip_bytes_cons, if_pos ⟨rfl, rfl, rfl⟩]
  have hdrop : (extra ++ (name ++ 0 :: rest)).drop (xl1 + 256 * xl2) = name ++ 0 :: rest := by
    rw [← hlen]
    exact List.drop_left extra (name ++ 0 :: rest)
  have h2 : flags.land 4 ≠ 0 := by simpa using hflag2
  have h3 : flags.land 8 ≠ 0 := by simpa using hflag3
  simp [h2, h3, hdrop, takeUntilZero_append name rest hname]

/-- On an existing gzip-classified file, `_list_gzip_contents` is the decoded
result of the byte-level header reader. -/
theorem list_gzip_contents_eval (env : Env) (p : String)
    (hf : env.isFile p = true) (hg : env.gzipParses p = true) (ht : env.tarParses p = false) :
    ArchiveHandler.list_gzip_contents env p =
      match ArchiveHandler.list_gzip_bytes (env.fileBytes p) with
      | .error e => .error e
      | .ok names => .ok (names.map ArchiveHandler.decodeBytes) := by
  simp [ArchiveHandler.list_gzip_contents, ArchiveHandler.is_gzip_format, hf, hg, ht,
    bind, Except.bind]

/-- C9: for every existing gzip-classified file, a ten-byte header failing the
magic or compression-method check makes the lightweight member-name listing
return an empty list without raising; with a valid header and the filename
flag bit (bit 3) set it returns the NUL-terminated original-filename field,
skipping the length-prefixed extra field when flag bit 2 is set. -/
theorem list_gzip_contents_spec (env : Env) (p : String)
    (hf : env.isFile p = true) (hg : env.gzipParses p = true) (ht : env.tarParses p = false) :
    (∀ id1 id2 compression flags m1 m2 m3 m4 xf osb rest,
      env.fileBytes p =
        id1 :: id2 :: compression :: flags :: m1 :: m2 :: m3 :: m4 :: xf :: osb :: rest →
      ¬ (id1 = 0x1F ∧ id2 = 0x8B ∧ compression = 0x08) →
      ArchiveHandler.list_gzip_contents env p = .ok []) ∧
    (∀ flags m1 m2 m3 m4 xf osb name rest,
      env.fileBytes p =
        0x1F :: 0x8B :: 0x08 :: flags :: m1 :: m2 :: m3 :: m4 :: xf :: osb :: (name ++ 0 :: rest) →
      flags.land (1 <<< 3) ≠ 0 → flags.land (1 <<< 2) = 0 → 0 ∉ name →
      ArchiveHandler.list_gzip_contents env p = .ok [ArchiveHandler.decodeBytes name]) ∧
    (∀ flags m1 m2 m3 m4 xf osb xl1 xl2 extra name rest,
      env.fileBytes p =
        0x1F :: 0x8B :: 0x08 :: flags :: m1 :: m2 :: m3 :: m4 :: xf :: osb ::
          xl1 :: xl2 :: (extra ++ (name ++ 0 :: rest)) →
      extra.length = xl1 + 256 * xl2 →
      flags.land (1 <<< 3) ≠ 0 → flags.land (1 <<< 2) ≠ 0 → 0 ∉ name →
      ArchiveHandler.list_gzip_contents env p = .ok [ArchiveHandler.decodeBytes name]) := by
  have heval := list_gzip_contents_eval env p hf hg ht
  refine ⟨?_, ?_, ?_⟩
  · intro id1 id2 compression flags m1 m2 m3 m4 xf osb rest hb hbad
    rw [heval, hb, list_gzip_bytes_invalid id1 id2 compression flags m1 m2 m3 m4 xf osb rest hbad]
    rfl
  · intro flags m1 m2 m3 m4 xf osb name rest hb hflag3 hflag2 hname
    rw [heval, hb, list_gzip_bytes_name_noextra flags m1 m2 m3 m4 xf osb name rest hflag3 hflag2 hname]
    rfl
  · intro flags m1 m2 m3 m4 xf osb xl1 xl2 extra name rest hb hlen hflag3 hflag2 hname
    rw [heval, hb, list_gzip_bytes_name_extra flags m1 m2 m3 m4 xf osb xl1 xl2 extra name rest
      hlen hflag3 hflag2 hname]
    rfl

/-- Environment holding one gzip file `g.gz` whose bytes carry a valid header
with the filename flag set and the original name `ab`. -/
def envGzip : Env :=
  { isFile := fun p => p = "g.gz", isDirectory := fun _ => false,
    tarParses := fun _ => false, gzipParses := fun p => p = "g.gz",
    tarMembers := fun _ => [], fileBytes := fun p =>
      if p = "g.gz" then [0x1F, 0x8B, 0x08, 8, 0, 0, 0, 0, 0, 3, 97, 98, 0, 1, 2] else [],
    sizeBytes := fun _ => 0, md5 := fun _ => "", sha256 := fun _ => "",
    timestampIso := fun _ => "", cwdComps := [],
    otherFormatResult := fun _ => .unknown, extraExtTypes := fun _ => [] }

/-- Witness: on the concrete gzip header of `envGzip` the reader returns the
embedded original filename `ab`. -/
theorem list_gzip_contents_spec_witness :
    ArchiveHandler.list_gzip_contents envGzip "g.gz" =
      .ok [ArchiveHandler.decodeBytes [97, 98]] :=
  (list_gzip_contents_spec envGzip "g.gz" rfl rfl rfl).2.1
    8 0 0 0 0 0 3 [97, 98] [1, 2] rfl (by decide) (by decide) (by decide)

/-- On an existing file the archive classifier always answers. -/
theorem archive_get_file_type_isOk (env : Env) (p : String) (h : env.isFile p = true) :
    ∃ ft, ArchiveHandler.get_file_type_from_format env p = .ok ft := by
  cases ht : env.tarParses p <;> cases hg : env.gzipParses p
  · exact ⟨.unknown, by simp [ArchiveHandler.get_file_type_from_format,
      ArchiveHandler.is_tar_format, ArchiveHandler.is_gzip_format,
      ArchiveHandler.is_tgz_format, h, ht, hg, bind, Except.bind, pure, Except.pure]⟩
  · exact ⟨.archive_gz, by simp [ArchiveHandler.get_file_type_from_format,
      ArchiveHandler.is_tar_format, ArchiveHandler.is_gzip_format,
      ArchiveHandler.is_tgz_format, h, ht, hg, bind, Except.bind, pure, Except.pure]⟩
  · exact ⟨.archive_tar, by simp [ArchiveHandler.get_file_type_from_format,
      ArchiveHandler.is_tar_format, ArchiveHandler.is_gzip_format,
      ArchiveHandler.is_tgz_format, h, ht, hg, bind, Except.bind, pure, Except.pure]⟩
  · exact ⟨.archive_tgz, by simp [ArchiveHandler.get_file_type_from_format,
      ArchiveHandler.is_tar_format, ArchiveHandler.is_gzip_format,
      ArchiveHandler.is_tgz_format, h, ht, hg, bind, Except.bind, pure, Except.pure]⟩

/-- On an existing file the handler-dispatch classifier always answers. -/
theorem fh_get_file_type_isOk (env : Env) (p : String) (h : env.isFile p = true) :
    ∃ ft, FileHandler.get_file_type_from_format env p = .ok ft := by
  unfold FileHandler.get_file_type_from_format
  rw [if_neg (by simp [h])]
  by_cases hext : strLower (get_file_extension p) = ".gz" ∨
      strLower (get_file_extension p) = ".tar" ∨ strLower (get_file_extension p) = ".tgz"
  · rw [if_pos hext]
    exact archive_get_file_type_isOk env p h
  · rw [if_neg hext]
    exact ⟨_, rfl⟩

/-- Shape of the metadata record on an existing file. -/
theorem get_metadata_eval (env : Env) (p : String) (h : env.isFile p = true) (ft : FileType)
    (hft : FileHandler.get_file_type_from_format env p = .ok ft) :
    FileHandler.get_metadata env p =
      .ok { filename := get_file_basename p, size_bytes := env.sizeBytes p,
            hash_md5 := env.md5 p, hash_sha256 := env.sha256 p,
            timestamp_iso := env.timestampIso p, file_type := ft } := by
  simp [FileHandler.get_metadata, h, hft]

/-- A name accepted by the submission grammar always derives a URL. -/
theorem submission_url_isOk (p : String)
    (h : SubmissionHandler.is_submission_filename p = true) :
    ∃ url, SubmissionHandler.generate_url_for_submission_filename p = .ok url := by
  unfold SubmissionHandler.generate_url_for_submission_filename
  cases hold : SubmissionHandler.parse_old_style_submission_filename p with
  | some q => exact ⟨_, rfl⟩
  | none =>
    cases hcur : SubmissionHandler.parse_current_style_submission_filename p with
    | some q => exact ⟨_, rfl⟩
    | none =>
      unfold SubmissionHandler.is_submission_filename at h
      rw [hold, hcur] at h
      exact absurd h (by simp)

/-- An absent key has an empty filter slice. -/
theorem filter_key_nil_of_not_present {α : Type} (r : Reg α) (k : String)
    (h : Registry.is_key_present r k = false) :
    r.filter (fun kv => kv.1 = k) = [] := by
  induction r with
  | nil => rfl
  | cons kv rest ih =>
    unfold Registry.is_key_present at h ih
    simp only [List.any_cons, Bool.or_eq_false_iff] at h
    simp only [List.filter_cons, h.1, ih h.2]
    rw [if_neg (by simp [h.1])]

/-- Under distinct keys, a present key has exactly one entry in the registry. -/
theorem filter_key_one_of_nodup {α : Type} (r : Reg α) (k : String)
    (hn : (r.map Prod.fst).Nodup) (hp : Registry.is_key_present r k = true) :
    (r.filter (fun kv => kv.1 = k)).length = 1 := by
  induction r with
  | nil => simp [Registry.is_key_present] at hp
  | cons kv rest ih =>
    simp only [List.map_cons, List.nodup_cons] at hn
    by_cases hk : kv.1 = k
    · have hnp : Registry.is_key_present rest k = false := by
        unfold Registry.is_key_present
        rw [List.any_eq_false]
        intro x hx
        simp only [decide_eq_true_eq]
        intro hxk
        exact hn.1 (hk ▸ hxk ▸ List.mem_map_of_mem Prod.fst hx)
      simp [List.filter_cons, hk, filter_key_nil_of_not_present rest k hnp]
    · have hp2 : Registry.is_key_present rest k = true := by
        unfold Registry.is_key_present at hp ⊢
        simpa [hk] using hp
      simp [List.filter_cons, hk, ih hn.2 hp2]

/-- `updateAt` does not change the key sequence. -/
theorem updateAt_keys {α : Type} (r : Reg α) (k : String) (v : α) :
    (Registry.updateAt r k v).map Prod.fst = r.map Prod.fst := by
  unfold Registry.updateAt
  rw [List.map_map]
  apply List.map_congr_left
  intro kv _
  by_cases hk : kv.1 = k <;> simp [hk]

/-- `updateAt` does not change the presence of any key. -/
theorem updateAt_is_key_present {α : Type} (r : Reg α) (k k2 : String) (v : α) :
    Registry.is_key_present (Registry.updateAt r k v) k2 = Registry.is_key_present r k2 := by
  unfold Registry.is_key_present Registry.updateAt
  induction r with
  | nil => rfl
  | cons kv rest ih =>
    by_cases hk : kv.1 = k <;> simp [hk, ih]

/-- A registry entry whose metadata filename equals the file's basename makes
`find_bulk_archive_filename` answer. -/
theorem find_bulk_archive_filename_isSome (r : Reg BulkEntry) (p : String)
    (h : ∃ kv ∈ r, kv.2.metadata.filename = get_file_basename p) :
    (BulkArchiveRegistry.find_bulk_archive_filename r p).isSome = true := by
  obtain ⟨kv, hmem, hfn⟩ := h
  unfold BulkArchiveRegistry.find_bulk_archive_filename
  have hne : r.filter (fun kv => kv.2.metadata.filename = get_file_basename p) ≠ [] := by
    intro hnil
    have hmemf : kv ∈ r.filter (fun kv => kv.2.metadata.filename = get_file_basename p) :=
      List.mem_filter.mpr ⟨hmem, decide_eq_true hfn⟩
    rw [hnil] at hmemf
    exact absurd hmemf (List.not_mem_nil kv)
  cases hfil : r.filter (fun kv => kv.2.metadata.filename = get_file_basename p) with
  | nil => exact absurd hfil hne
  | cons a rest => simp [hfil]

/-- C2: a bulk archive whose validation check list is non-empty never
registers: the call raises an exception and the registry state is identical
before and after (no entry written, no entry modified). -/
theorem register_bulk_archive_fail_closed (env : Env) (r : Reg BulkEntry) (p : String)
    (errs : List String)
    (hcheck : BulkArchiveHandler.check_bulk_archive env p = .ok errs) (hne : errs ≠ []) :
    (BulkArchiveRegistry.register_bulk_archive env r p).1 = r ∧
    (BulkArchiveRegistry.register_bulk_archive env r p).2.isSome = true := by
  unfold BulkArchiveRegistry.register_bulk_archive
  by_cases hfile : env.isFile p = true
  case neg => simp [hfile]
  case pos =>
    by_cases hname : BulkArchiveHandler.is_bulk_archive_filename p = true
    case neg => simp [hfile, hname]
    case pos =>
      cases hfind : BulkArchiveRegistry.find_bulk_archive_filename r p with
      | some k => simp [hfile, hname, hfind]
      | none =>
        obtain ⟨ft, hft⟩ := fh_get_file_type_isOk env p hfile
        have hmd := get_metadata_eval env p hfile ft hft
        have hgen : BulkArchiveHandler.generate_registry_entry env p =
            .ok (env.sha256 p,
              ⟨⟨get_file_basename p, env.sizeBytes p, env.md5 p, env.sha256 p,
                env.timestampIso p, ft⟩, "s3://arxiv/src/" ++ get_file_basename p⟩, errs) := by
          simp [BulkArchiveHandler.generate_registry_entry, hfile, hcheck, hmd,
            BulkArchiveHandler.generate_uri_for_bulk_archive_filename, hname,
            bind, Except.bind, pure, Except.pure]
        have hlen : 0 < errs.length := List.length_pos.mpr hne
        simp [hfile, hname, hfind, hgen, hlen]

/-- Witness: registering a file that fails validation (here: a name outside
the bulk-archive grammar) raises and leaves the registry untouched. -/
theorem register_bulk_archive_fail_closed_witness :
    (BulkArchiveRegistry.register_bulk_archive envNoFiles [] "x").1 = [] ∧
    (BulkArchiveRegistry.register_bulk_archive envNoFiles [] "x").2.isSome = true :=
  register_bulk_archive_fail_closed envNoFiles [] "x"
    ["Filename " ++ "x" ++ " does not match bulk archive pattern"] (by decide) (by decide)

/-- C3: a submission file that exists and has a valid submission filename but
a non-empty validation error list is still registered without raising: under a
fresh digest key the entry is written with the collected error strings in its
`diagnostics.error_log`. -/
theorem register_submission_fail_open (env : Env) (r : Reg SubEntry) (p bk : String)
    (errs : List String)
    (hfile : env.isFile p = true)
    (hname : SubmissionHandler.is_submission_filename p = true)
    (hcheck : SubmissionHandler.check_submission env p = .ok errs) (hne : errs ≠ [])
    (hfresh : Registry.is_key_present r (env.sha256 p) = false) :
    ∃ e : SubEntry,
      SubmissionRegistry.register_submission env r p bk = (r ++ [(env.sha256 p, e)], none) ∧
      e.diagnostics = some { error_log := errs, key_conflicts := none } := by
  obtain ⟨ft, hft⟩ := fh_get_file_type_isOk env p hfile
  have hmd := get_metadata_eval env p hfile ft hft
  obtain ⟨url, hurl⟩ := submission_url_isOk p hname
  have hlen : 0 < errs.length := List.length_pos.mpr hne
  have hgen : SubmissionHandler.generate_registry_entry env p bk =
      .ok (env.sha256 p,
        ⟨⟨⟨get_file_basename p, env.sizeBytes p, env.md5 p, env.sha256 p,
           env.timestampIso p, ft⟩, SubmissionType.unknown⟩, url, bk, none⟩, errs) := by
    simp [SubmissionHandler.generate_registry_entry, hfile, hcheck, hurl, hmd, hlen,
      hne, List.length_eq_zero, bind, Except.bind, pure, Except.pure]
  refine ⟨⟨⟨⟨get_file_basename p, env.sizeBytes p, env.md5 p, env.sha256 p,
      env.timestampIso p, ft⟩, SubmissionType.unknown⟩, url, bk,
      some ⟨errs, none⟩⟩, ?_, rfl⟩
  simp [SubmissionRegistry.register_submission, hfile, hname, hgen, hlen, hfresh,
    Registry.add_entry, SubEntryGen.toEntry]

/-- Environment holding one submission file `1202.3054.gz` whose content is a
plain tar stream, so that format-extension agreement fails and validation
collects an error. -/
def envSubErr : Env :=
  { isFile := fun p => p = "1202.3054.gz", isDirectory := fun p => p = "/",
    tarParses := fun p => p = "1202.3054.gz", gzipParses := fun _ => false,
    tarMembers := fun _ => [], fileBytes := fun _ => [],
    sizeBytes := fun _ => 7, md5 := fun _ => "m", sha256 := fun _ => "sk",
    timestampIso := fun _ => "t", cwdComps := ["cwd"],
    otherFormatResult := fun _ => .unknown, extraExtTypes := fun _ => [] }

/-- Witness: the flagged submission of `envSubErr` is written with its error
log attached. -/
theorem register_submission_fail_open_witness :
    ∃ e : SubEntry,
      SubmissionRegistry.register_submission envSubErr [] "1202.3054.gz" "bk" =
        ([] ++ [(envSubErr.sha256 "1202.3054.gz", e)], none) ∧
      e.diagnostics = some ⟨["File type ARCHIVE_TAR not allowed"], none⟩ :=
  register_submission_fail_open envSubErr [] "1202.3054.gz" "bk"
    ["File type ARCHIVE_TAR not allowed"] rfl (by decide) (by decide) (by decide) rfl

/-- A looked-up entry is a member of the registry list. -/
theorem get_entry_some_mem {α : Type} (r : Reg α) (k : String) (e : α)
    (h : Registry.get_entry? r k = some e) : (k, e) ∈ r := by
  unfold Registry.get_entry? at h
  cases hf : r.find? (fun kv => kv.1 = k) with
  | none => rw [hf] at h; simp at h
  | some kv =>
    rw [hf] at h
    simp at h
    have hmem := List.mem_of_find?_eq_some hf
    have hpred := List.find?_some hf
    simp only [decide_eq_true_eq] at hpred
    have hkv : kv = (k, e) := by
      cases kv
      simp only [Prod.mk.injEq]
      exact ⟨hpred, h⟩
    rw [hkv] at hmem
    exact hmem

/-- A member key is reported present. -/
theorem is_key_present_of_mem {α : Type} (r : Reg α) (k : String) (e : α)
    (h : (k, e) ∈ r) : Registry.is_key_present r k = true := by
  unfold Registry.is_key_present
  rw [List.any_eq_true]
  exact ⟨(k, e), h, by simp⟩

/-- An absent key does not occur in the key sequence. -/
theorem not_mem_keys_of_not_present {α : Type} (r : Reg α) (k : String)
    (h : Registry.is_key_present r k = false) : k ∉ r.map Prod.fst := by
  unfold Registry.is_key_present at h
  rw [List.any_eq_false] at h
  intro hk
  obtain ⟨kv, hkv, hfst⟩ := List.mem_map.mp hk
  have := h kv hkv
  simp only [decide_eq_true_eq] at this
  exact this hfst

/-- Attaching a diagnostics error log leaves the candidate's metadata
unchanged. -/
theorem attach_metadata (gen : SubEntryGen) (errs : List String) :
    (if 0 < errs.length then { gen with diagnostics_error_log := some errs }
     else gen).metadata = gen.metadata := by
  split <;> rfl

/-- `register_submission` keeps the registry keys pairwise distinct. -/
theorem register_submission_nodup (env : Env) (r : Reg SubEntry) (p bk : String)
    (h : (r.map Prod.fst).Nodup) :
    (((SubmissionRegistry.register_submission env r p bk).1).map Prod.fst).Nodup := by
  unfold SubmissionRegistry.register_submission
  by_cases hfile : env.isFile p = true
  case neg => simpa [hfile] using h
  case pos =>
    by_cases hname : SubmissionHandler.is_submission_filename p = true
    case neg => simpa [hfile, hname] using h
    case pos =>
      rw [if_neg (by simp [hfile]), if_neg (by simp [hname])]
      cases hgen : SubmissionHandler.generate_registry_entry env p bk with
      | error e => simpa using h
      | ok kge =>
        obtain ⟨key, gen, errs⟩ := kge
        simp only []
        by_cases hpres : Registry.is_key_present r key = true
        · rw [if_pos hpres]
          cases hget : Registry.get_entry? r key with
          | none => simpa using h
          | some existing =>
            simp only []
            by_cases hmeta : existing.metadata ≠
                (if 0 < errs.length then { gen with diagnostics_error_log := some errs }
                 else gen).metadata
            · rw [if_pos hmeta]
              simpa [updateAt_keys] using h
            · rw [if_neg hmeta]
              simpa using h
        · rw [if_neg hpres]
          unfold Registry.add_entry
          rw [if_neg (by simpa using hpres)]
          simp only [List.map_append, List.map_cons, List.map_nil]
          rw [List.nodup_append]
          refine ⟨h, List.nodup_singleton key, ?_⟩
          intro a ha hb
          rw [List.mem_singleton] at hb
          rw [hb] at ha
          exact not_mem_keys_of_not_present r key (by simpa using hpres) ha

/-- A second `register_submission` call against a state that already holds
the file's entry under its digest key (with the same metadata) is a silent
no-op. -/
theorem register_submission_again_noop (env : Env) (r1 : Reg SubEntry) (p bk key : String)
    (gen : SubEntryGen) (errs : List String) (e : SubEntry)
    (hfile : env.isFile p = true) (hname : SubmissionHandler.is_submission_filename p = true)
    (hgen : SubmissionHandler.generate_registry_entry env p bk = .ok (key, gen, errs))
    (hget : Registry.get_entry? r1 key = some e) (hmeta : e.metadata = gen.metadata) :
    SubmissionRegistry.register_submission env r1 p bk = (r1, none) := by
  have hpres : Registry.is_key_present r1 key = true :=
    is_key_present_of_mem r1 key e (get_entry_some_mem r1 key e hget)
  unfold SubmissionRegistry.register_submission
  rw [if_neg (by simp [hfile]), if_neg (by simp [hname]), hgen]
  simp only []
  rw [if_pos hpres, hget]
  simp only []
  rw [if_neg (not_not_intro (hmeta.trans (attach_metadata gen errs).symm))]

/-- A successful `register_bulk_archive` call appends the generated entry
under the SHA256 key, and a second call on the same file then raises the
already-registered `ValueError`, leaving the state untouched with exactly one
entry for the key. -/
theorem register_bulk_archive_again_raises (env : Env) (r r1 : Reg BulkEntry) (p : String)
    (h1 : BulkArchiveRegistry.register_bulk_archive env r p = (r1, none)) :
    BulkArchiveRegistry.register_bulk_archive env r1 p =
      (r1, some (.valueError ("File '" ++ p ++ "' is already registered."))) ∧
    (r1.filter (fun kv => kv.1 = env.sha256 p)).length = 1 := by
  have hfile : env.isFile p = true := by
    by_contra hc
    unfold BulkArchiveRegistry.register_bulk_archive at h1
    rw [if_pos hc] at h1
    simp at h1
  have hname : BulkArchiveHandler.is_bulk_archive_filename p = true := by
    by_contra hc
    unfold BulkArchiveRegistry.register_bulk_archive at h1
    rw [if_neg (by simp [hfile]), if_pos hc] at h1
    simp at h1
  have hfind : BulkArchiveRegistry.find_bulk_archive_filename r p = none := by
    cases hfo : BulkArchiveRegistry.find_bulk_archive_filename r p with
    | none => rfl
    | some k =>
      exfalso
      unfold BulkArchiveRegistry.register_bulk_archive at h1
      rw [if_neg (by simp [hfile]), if_neg (by simp [hname]),
        if_pos (by rw [hfo]; rfl)] at h1
      simp at h1
  obtain ⟨ft, hft⟩ := fh_get_file_type_isOk env p hfile
  have hmd := get_metadata_eval env p hfile ft hft
  cases hcheck : BulkArchiveHandler.check_bulk_archive env p with
  | error err =>
    exfalso
    have hgen : BulkArchiveHandler.generate_registry_entry env p = .error err := by
      simp [BulkArchiveHandler.generate_registry_entry, hfile, hcheck, bind, Except.bind]
    unfold BulkArchiveRegistry.register_bulk_archive at h1
    rw [if_neg (by simp [hfile]), if_neg (by simp [hname]), if_neg (by simp [hfind]),
      hgen] at h1
    simp at h1
  | ok cerrs =>
    have hgen : BulkArchiveHandler.generate_registry_entry env p =
        .ok (env.sha256 p, ⟨⟨get_file_basename p, env.sizeBytes p, env.md5 p, env.sha256 p,
          env.timestampIso p, ft⟩, "s3://arxiv/src/" ++ get_file_basename p⟩, cerrs) := by
      simp [BulkArchiveHandler.generate_registry_entry, hfile, hcheck, hmd,
        BulkArchiveHandler.generate_uri_for_bulk_archive_filename, hname,
        bind, Except.bind, pure, Except.pure]
    unfold BulkArchiveRegistry.register_bulk_archive at h1
    rw [if_neg (by simp [hfile]), if_neg (by simp [hname]), if_neg (by simp [hfind]),
      hgen] at h1
    simp only [] at h1
    by_cases hlen : 0 < cerrs.length
    · rw [if_pos hlen] at h1
      simp at h1
    · rw [if_neg hlen] at h1
      by_cases hpres : Registry.is_key_present r (env.sha256 p) = true
      · rw [if_pos hpres] at h1
        by_cases hne2 : Registry.get_entry? r (env.sha256 p) ≠
            some ⟨⟨get_file_basename p, env.sizeBytes p, env.md5 p, env.sha256 p,
              env.timestampIso p, ft⟩, "s3://arxiv/src/" ++ get_file_basename p⟩
        · rw [if_pos hne2] at h1
          simp at h1
        · exfalso
          push_neg at hne2
          have hmem := get_entry_some_mem r (env.sha256 p) _ hne2
          have hsome := find_bulk_archive_filename_isSome r p
            ⟨(env.sha256 p, ⟨⟨get_file_basename p, env.sizeBytes p, env.md5 p, env.sha256 p,
              env.timestampIso p, ft⟩, "s3://arxiv/src/" ++ get_file_basename p⟩), hmem, rfl⟩
          rw [hfind] at hsome
          simp at hsome
      · rw [if_neg hpres] at h1
        unfold Registry.add_entry at h1
        rw [if_neg (by simp [hpres])] at h1
        simp only [] at h1
        have hr1 : r1 = r ++ [(env.sha256 p,
            ⟨⟨get_file_basename p, env.sizeBytes p, env.md5 p, env.sha256 p,
              env.timestampIso p, ft⟩, "s3://arxiv/src/" ++ get_file_basename p⟩)] := by
          have hfst := congrArg Prod.fst h1
          simpa using hfst.symm
        have hsome : (BulkArchiveRegistry.find_bulk_archive_filename r1 p).isSome = true := by
          apply find_bulk_archive_filename_isSome
          refine ⟨(env.sha256 p, ⟨⟨get_file_basename p, env.sizeBytes p, env.md5 p,
            env.sha256 p, env.timestampIso p, ft⟩,
            "s3://arxiv/src/" ++ get_file_basename p⟩), ?_, rfl⟩
          rw [hr1]
          exact List.mem_append_right r (List.mem_singleton_self _)
        constructor
        · unfold BulkArchiveRegistry.register_bulk_archive
          rw [if_neg (by simp [hfile]), if_neg (by simp [hname]), if_pos hsome]
        · rw [hr1, List.filter_append,
            filter_key_nil_of_not_present r (env.sha256 p) (by simpa using hpres)]
          simp

/-- Environment holding one well-formed bulk archive `arXiv_src_9902_005.tar`
(tar content, one valid submission member, free destination). -/
def envBulkOk : Env :=
  { isFile := fun p => p = "arXiv_src_9902_005.tar", isDirectory := fun p => p = "/",
    tarParses := fun p => p = "arXiv_src_9902_005.tar", gzipParses := fun _ => false,
    tarMembers := fun p => if p = "arXiv_src_9902_005.tar" then ["9902.0001.gz"] else [],
    fileBytes := fun _ => [], sizeBytes := fun _ => 42, md5 := fun _ => "m",
    sha256 := fun _ => "k", timestampIso := fun _ => "t", cwdComps := ["cwd"],
    otherFormatResult := fun _ => .unknown, extraExtTypes := fun _ => [] }

/-- C1 counterexample: on a concrete bulk archive whose first registration
succeeds, the second `register_bulk_archive` call with no state change raises
a ValueError instead of completing as a silent no-op. -/
theorem register_bulk_archive_not_idempotent :
    (BulkArchiveRegistry.register_bulk_archive envBulkOk [] "arXiv_src_9902_005.tar").2 =
      none ∧
    (BulkArchiveRegistry.register_bulk_archive envBulkOk
        (BulkArchiveRegistry.register_bulk_archive envBulkOk [] "arXiv_src_9902_005.tar").1
        "arXiv_src_9902_005.tar").2 =
      some (.valueError "File 'arXiv_src_9902_005.tar' is already registered.") := by
  decide

/-- C1 (amended): with no state change between the calls, a second
`register_submission` call on a file whose entry is stored under its digest
key is a silent no-op leaving exactly one registry entry for that key (and
adding no conflict diagnostics, the state being unchanged); a second
`register_bulk_archive` call on a file whose first registration succeeded
instead raises a ValueError reporting the file as already registered, likewise
leaving the state unchanged with exactly one entry for the digest key and no
conflict record. -/
theorem register_twice_spec (env : Env) :
    (∀ (r r1 : Reg SubEntry) (p bk key : String) (gen : SubEntryGen) (errs : List String)
      (e : SubEntry),
      (r.map Prod.fst).Nodup →
      SubmissionHandler.generate_registry_entry env p bk = .ok (key, gen, errs) →
      SubmissionRegistry.register_submission env r p bk = (r1, none) →
      Registry.get_entry? r1 key = some e → e.metadata = gen.metadata →
      SubmissionRegistry.register_submission env r1 p bk = (r1, none) ∧
      (r1.filter (fun kv => kv.1 = key)).length = 1) ∧
    (∀ (r r1 : Reg BulkEntry) (p : String),
      BulkArchiveRegistry.register_bulk_archive env r p = (r1, none) →
      BulkArchiveRegistry.register_bulk_archive env r1 p =
        (r1, some (.valueError ("File '" ++ p ++ "' is already registered."))) ∧
      (r1.filter (fun kv => kv.1 = env.sha256 p)).length = 1) := by
  constructor
  · intro r r1 p bk key gen errs e hnodup hgen h1 hget hmeta
    have hfile : env.isFile p = true := by
      by_contra hc
      unfold SubmissionRegistry.register_submission at h1
      rw [if_pos hc] at h1
      simp at h1
    have hname : SubmissionHandler.is_submission_filename p = true := by
      by_contra hc
      unfold SubmissionRegistry.register_submission at h1
      rw [if_neg (by simp [hfile]), if_pos hc] at h1
      simp at h1
    have hnodup1 : (r1.map Prod.fst).Nodup := by
      have hpre := register_submission_nodup env r p bk hnodup
      rw [h1] at hpre
      exact hpre
    refine ⟨register_submission_again_noop env r1 p bk key gen errs e hfile hname hgen
      hget hmeta, ?_⟩
    exact filter_key_one_of_nodup r1 key hnodup1
      (is_key_present_of_mem r1 key e (get_entry_some_mem r1 key e hget))
  · intro r r1 p h1
    exact register_bulk_archive_again_raises env r r1 p h1

/-- Witness: the amended theorem applied to `envBulkOk` after a concrete
successful first registration. -/
theorem register_twice_spec_witness :
    BulkArchiveRegistry.register_bulk_archive envBulkOk
        (BulkArchiveRegistry.register_bulk_archive envBulkOk [] "arXiv_src_9902_005.tar").1
        "arXiv_src_9902_005.tar" =
      ((BulkArchiveRegistry.register_bulk_archive envBulkOk [] "arXiv_src_9902_005.tar").1,
        some (.valueError ("File '" ++ "arXiv_src_9902_005.tar" ++ "' is already registered."))) ∧
    (((BulkArchiveRegistry.register_bulk_archive envBulkOk [] "arXiv_src_9902_005.tar").1).filter
        (fun kv => kv.1 = envBulkOk.sha256 "arXiv_src_9902_005.tar")).length = 1 :=
  (register_twice_spec envBulkOk).2 []
    (BulkArchiveRegistry.register_bulk_archive envBulkOk [] "arXiv_src_9902_005.tar").1
    "arXiv_src_9902_005.tar" (by decide)

/-- The error log of a stored submission entry (empty when the diagnostics
dict is absent). -/
def errorLogOf (e : SubEntry) : List String :=
  match e.diagnostics with
  | none => []
  | some d => d.error_log

/-- The candidate entry `register_submission` builds before the duplicate-key
check: the generated entry with the validation errors attached to its
diagnostics when there are any (`submission_registry.py`, lines 72-75). -/
def submission_candidate (env : Env) (file_path bulk_archive_key : String) :
    Except Err (String × SubEntryGen) :=
  match SubmissionHandler.generate_registry_entry env file_path bulk_archive_key with
  | .error e => .error e
  | .ok (key, gen, errs) =>
    .ok (key, if 0 < errs.length then { gen with diagnostics_error_log := some errs } else gen)

/-- The registry state after a sequence of `register_submission` calls, in
call order. -/
def register_submissions (env : Env) (r : Reg SubEntry) (calls : List (String × String)) :
    Reg SubEntry :=
  calls.foldl (fun acc c => (SubmissionRegistry.register_submission env acc c.1 c.2).1) r

/-- The candidates of a sequence of calls, in call order. -/
def candList (env : Env) (calls : List (String × String)) : List SubEntryGen :=
  calls.filterMap (fun c =>
    match submission_candidate env c.1 c.2 with
    | .ok (_, cand) => some cand
    | .error _ => none)

/-- `recordConflict` on an entry without the marker: add the one-time
`'key conflicts'` marker and start a fresh `key_conflicts` list. -/
theorem recordConflict_fresh (e : SubEntry) (cand : SubEntryGen)
    (h : "key conflicts" ∉ errorLogOf e) :
    SubmissionRegistry.recordConflict e cand =
      ({ e with diagnostics := some ⟨errorLogOf e ++ ["key conflicts"], some [cand]⟩ }, none) := by
  cases hd : e.diagnostics with
  | none =>
    simp [SubmissionRegistry.recordConflict, errorLogOf, hd]
  | some d =>
    have hmark : "key conflicts" ∉ d.error_log := by
      unfold errorLogOf at h
      rw [hd] at h
      exact h
    simp [SubmissionRegistry.recordConflict, errorLogOf, hd, hmark]

/-- `recordConflict` on an entry already carrying the marker and a conflicts
list: append the rejected candidate, leave the error log alone. -/
theorem recordConflict_marked (e : SubEntry) (cand : SubEntryGen) (d : SubDiagnostics)
    (l : List SubEntryGen) (hd : e.diagnostics = some d) (hkc : d.key_conflicts = some l)
    (hmark : "key conflicts" ∈ d.error_log) :
    SubmissionRegistry.recordConflict e cand =
      ({ e with diagnostics := some ⟨d.error_log, some (l ++ [cand])⟩ }, none) := by
  unfold SubmissionRegistry.recordConflict
  rw [hd]
  simp only [Option.getD_some]
  rw [if_pos hmark, hkc]

/-- Lookup on a nonempty registry list. -/
theorem get_entry_cons {α : Type} (kv : String × α) (rest : Reg α) (k : String) :
    Registry.get_entry? (kv :: rest) k =
      if kv.1 = k then some kv.2 else Registry.get_entry? rest k := by
  unfold Registry.get_entry?
  by_cases hk : kv.1 = k
  · rw [List.find?_cons_of_pos _ (by simpa using hk)]
    simp [hk]
  · rw [List.find?_cons_of_neg _ (by simpa using hk)]
    rw [if_neg hk]

/-- `updateAt` on a nonempty registry list. -/
theorem updateAt_cons {α : Type} (kv : String × α) (rest : Reg α) (k : String) (v : α) :
    Registry.updateAt (kv :: rest) k v =
      (if kv.1 = k then (kv.1, v) else kv) :: Registry.updateAt rest k v := rfl

/-- Presence on a nonempty registry list. -/
theorem is_key_present_cons {α : Type} (kv : String × α) (rest : Reg α) (k : String) :
    Registry.is_key_present (kv :: rest) k =
      (kv.1 = k ∨ Registry.is_key_present rest k : Bool) := by
  unfold Registry.is_key_present
  by_cases hk : kv.1 = k <;> simp [hk]

/-- Looking up the updated key after `updateAt` yields the new value. -/
theorem get_entry_updateAt_self {α : Type} (r : Reg α) (k : String) (v : α)
    (h : Registry.is_key_present r k = true) :
    Registry.get_entry? (Registry.updateAt r k v) k = some v := by
  induction r with
  | nil => simp [Registry.is_key_present] at h
  | cons kv rest ih =>
    rw [updateAt_cons, get_entry_cons]
    by_cases hk : kv.1 = k
    · rw [if_pos hk]
      simp [hk]
    · rw [if_neg hk]
      rw [if_neg hk]
      refine ih ?_
      rw [is_key_present_cons] at h
      simpa [hk] using h

/-- Looking up any other key after `updateAt` is unchanged. -/
theorem get_entry_updateAt_other {α : Type} (r : Reg α) (k k2 : String) (v : α)
    (h : k2 ≠ k) :
    Registry.get_entry? (Registry.updateAt r k v) k2 = Registry.get_entry? r k2 := by
  induction r with
  | nil => rfl
  | cons kv rest ih =>
    rw [updateAt_cons, get_entry_cons, get_entry_cons kv rest k2]
    by_cases hk : kv.1 = k
    · have hk2 : ¬ kv.1 = k2 := by
        rw [hk]
        exact fun hc => h hc.symm
      rw [if_pos hk]
      simp only []
      rw [if_neg hk2, if_neg hk2]
      exact ih
    · rw [if_neg hk]
      by_cases hk2 : kv.1 = k2
      · rw [if_pos hk2, if_pos hk2]
      · rw [if_neg hk2, if_neg hk2]
        exact ih

/-- A `register_submission` call whose candidate collides with a stored entry
of different metadata mutates exactly that entry through `recordConflict`. -/
theorem register_submission_conflict_step (env : Env) (r : Reg SubEntry) (p bk k : String)
    (cand : SubEntryGen) (ex : SubEntry)
    (hfile : env.isFile p = true) (hname : SubmissionHandler.is_submission_filename p = true)
    (hcand : submission_candidate env p bk = .ok (k, cand))
    (hget : Registry.get_entry? r k = some ex)
    (hmeta : ex.metadata ≠ cand.metadata) :
    SubmissionRegistry.register_submission env r p bk =
      (Registry.updateAt r k (SubmissionRegistry.recordConflict ex cand).1,
       (SubmissionRegistry.recordConflict ex cand).2) := by
  have hpres : Registry.is_key_present r k = true :=
    is_key_present_of_mem r k ex (get_entry_some_mem r k ex hget)
  unfold submission_candidate at hcand
  cases hg : SubmissionHandler.generate_registry_entry env p bk with
  | error e =>
    rw [hg] at hcand
    simp at hcand
  | ok kge =>
    obtain ⟨key, gen, errs⟩ := kge
    rw [hg] at hcand
    simp only [Except.ok.injEq, Prod.mk.injEq] at hcand
    obtain ⟨hkey, hattach⟩ := hcand
    subst hkey
    unfold SubmissionRegistry.register_submission
    rw [if_neg (by simp [hfile]), if_neg (by simp [hname]), hg]
    simp only []
    rw [hattach, if_pos hpres, hget]
    simp only []
    rw [if_pos hmeta]

/-- A successful candidate prepends itself to the candidate list. -/
theorem candList_cons (env : Env) (c : String × String) (cs : List (String × String))
    (k : String) (cand : SubEntryGen)
    (h : submission_candidate env c.1 c.2 = .ok (k, cand)) :
    candList env (c :: cs) = cand :: candList env cs := by
  unfold candList
  rw [List.filterMap_cons, h]

/-- When every call produces a candidate, the candidate list has one entry
per call. -/
theorem candList_length (env : Env) (calls : List (String × String))
    (h : ∀ c ∈ calls, ∃ k cand, submission_candidate env c.1 c.2 = .ok (k, cand)) :
    (candList env calls).length = calls.length := by
  induction calls with
  | nil => rfl
  | cons c cs ih =>
    obtain ⟨k, cand, hc⟩ := h c (List.mem_cons_self c cs)
    rw [candList_cons env c cs k cand hc, List.length_cons,
      ih (fun c2 h2 => h c2 (List.mem_cons_of_mem c h2))]
    rfl

/-- Processing a sequence of colliding calls against an entry that already
carries the conflict marker appends each rejected candidate in call order and
touches nothing else. -/
theorem conflict_fold_marked (env : Env) (calls : List (String × String)) (r : Reg SubEntry)
    (k : String) (E : SubEntry) (log1 : List String) (acc : List SubEntryGen)
    (hnodup : (r.map Prod.fst).Nodup)
    (hmark : "key conflicts" ∈ log1)
    (hget : Registry.get_entry? r k = some { E with diagnostics := some ⟨log1, some acc⟩ })
    (hc : ∀ c ∈ calls, ∃ cand, submission_candidate env c.1 c.2 = .ok (k, cand) ∧
      cand.metadata ≠ E.metadata ∧ env.isFile c.1 = true ∧
      SubmissionHandler.is_submission_filename c.1 = true) :
    Registry.get_entry? (register_submissions env r calls) k =
      some { E with diagnostics := some ⟨log1, some (acc ++ candList env calls)⟩ } ∧
    (∀ k2, k2 ≠ k → Registry.get_entry? (register_submissions env r calls) k2 =
      Registry.get_entry? r k2) ∧
    ((register_submissions env r calls).map Prod.fst).Nodup := by
  induction calls generalizing r acc with
  | nil =>
    refine ⟨?_, fun k2 _ => rfl, hnodup⟩
    simpa [register_submissions, candList] using hget
  | cons c cs ih =>
    obtain ⟨cand, hcand, hmetane, hfilec, hnamec⟩ := hc c (List.mem_cons_self c cs)
    have hpres : Registry.is_key_present r k = true :=
      is_key_present_of_mem r k _ (get_entry_some_mem r k _ hget)
    have hstep := register_submission_conflict_step env r c.1 c.2 k cand
      { E with diagnostics := some ⟨log1, some acc⟩ } hfilec hnamec hcand hget
      (Ne.symm hmetane)
    rw [recordConflict_marked { E with diagnostics := some ⟨log1, some acc⟩ } cand
      ⟨log1, some acc⟩ acc rfl rfl hmark] at hstep
    have hfold : register_submissions env r (c :: cs) =
        register_submissions env (Registry.updateAt r k
          { E with diagnostics := some ⟨log1, some (acc ++ [cand])⟩ }) cs := by
      unfold register_submissions
      rw [List.foldl_cons, hstep]
    have hget2 : Registry.get_entry? (Registry.updateAt r k
        { E with diagnostics := some ⟨log1, some (acc ++ [cand])⟩ }) k =
        some { E with diagnostics := some ⟨log1, some (acc ++ [cand])⟩ } :=
      get_entry_updateAt_self r k _ hpres
    have hnodup2 : ((Registry.updateAt r k
        { E with diagnostics := some ⟨log1, some (acc ++ [cand])⟩ }).map Prod.fst).Nodup := by
      rw [updateAt_keys]
      exact hnodup
    obtain ⟨h1, h2, h3⟩ := ih _ (acc ++ [cand]) hnodup2 hget2
      (fun c2 hc2 => hc c2 (List.mem_cons_of_mem c hc2))
    refine ⟨?_, ?_, ?_⟩
    · rw [hfold, h1, candList_cons env c cs k cand hcand]
      simp
    · intro k2 hk2
      rw [hfold, h2 k2 hk2, get_entry_updateAt_other r k k2 _ hk2]
    · rw [hfold]
      exact h3

/-- C4: against a registry whose entry at the colliding key carries no
conflict marker yet, a sequence of n ≥ 1 `register_submission` calls whose
candidates hit that key with different metadata leaves the existing entry in
place with the `'key conflicts'` marker exactly once in its error log and
`diagnostics.key_conflicts` equal to the ordered sequence of the n rejected
candidate entries in call order; no other registry entry changes. -/
theorem submission_key_conflicts_spec (env : Env) (r : Reg SubEntry) (k : String)
    (E : SubEntry) (calls : List (String × String))
    (hne : calls ≠ [])
    (hnodup : (r.map Prod.fst).Nodup)
    (hget : Registry.get_entry? r k = some E)
    (hnomark : "key conflicts" ∉ errorLogOf E)
    (hc : ∀ c ∈ calls, ∃ cand, submission_candidate env c.1 c.2 = .ok (k, cand) ∧
      cand.metadata ≠ E.metadata ∧ env.isFile c.1 = true ∧
      SubmissionHandler.is_submission_filename c.1 = true) :
    Registry.get_entry? (register_submissions env r calls) k =
      some { E with diagnostics := some ⟨errorLogOf E ++ ["key conflicts"], some (candList env calls)⟩ } ∧
    (errorLogOf E ++ ["key conflicts"]).count "key conflicts" = 1 ∧
    (candList env calls).length = calls.length ∧
    (∀ k2, k2 ≠ k → Registry.get_entry? (register_submissions env r calls) k2 =
      Registry.get_entry? r k2) := by
  cases calls with
  | nil => exact absurd rfl hne
  | cons c cs =>
    obtain ⟨cand, hcand, hmetane, hfilec, hnamec⟩ := hc c (List.mem_cons_self c cs)
    have hpres : Registry.is_key_present r k = true :=
      is_key_present_of_mem r k E (get_entry_some_mem r k E hget)
    have hstep := register_submission_conflict_step env r c.1 c.2 k cand E hfilec hnamec
      hcand hget (Ne.symm hmetane)
    rw [recordConflict_fresh E cand hnomark] at hstep
    have hfold : register_submissions env r (c :: cs) =
        register_submissions env (Registry.updateAt r k
          { E with diagnostics := some ⟨errorLogOf E ++ ["key conflicts"], some [cand]⟩ }) cs := by
      unfold register_submissions
      rw [List.foldl_cons, hstep]
    have hget2 : Registry.get_entry? (Registry.updateAt r k
        { E with diagnostics := some ⟨errorLogOf E ++ ["key conflicts"], some [cand]⟩ }) k =
        some { E with diagnostics := some ⟨errorLogOf E ++ ["key conflicts"], some [cand]⟩ } :=
      get_entry_updateAt_self r k _ hpres
    have hnodup2 : ((Registry.updateAt r k
        { E with diagnostics := some ⟨errorLogOf E ++ ["key conflicts"], some [cand]⟩ }).map Prod.fst).Nodup := by
      rw [updateAt_keys]
      exact hnodup
    obtain ⟨h1, h2, h3⟩ := conflict_fold_marked env cs _ k E
      (errorLogOf E ++ ["key conflicts"]) [cand] hnodup2
      (List.mem_append_right _ (List.mem_singleton_self _)) hget2
      (fun c2 hc2 => hc c2 (List.mem_cons_of_mem c hc2))
    refine ⟨?_, ?_, ?_, ?_⟩
    · rw [hfold, h1, candList_cons env c cs k cand hcand]
      simp
    · rw [List.count_append, List.count_eq_zero.mpr hnomark]
      rfl
    · exact candList_length env (c :: cs)
        (fun c2 hc2 => (hc c2 hc2).elim (fun cand2 h2c => ⟨k, cand2, h2c.1⟩))
    · intro k2 hk2
      rw [hfold, h2 k2 hk2, get_entry_updateAt_other r k k2 _ hk2]

/-- Environment holding one gzip submission `1202.3054.gz` whose SHA256 key
`K` collides with a previously stored entry of different metadata. -/
def envConf : Env :=
  { isFile := fun p => p = "1202.3054.gz", isDirectory := fun p => p = "/",
    tarParses := fun _ => false, gzipParses := fun p => p = "1202.3054.gz",
    tarMembers := fun _ => [], fileBytes := fun _ => [0, 0, 0, 0, 0, 0, 0, 0, 0, 0],
    sizeBytes := fun _ => 7, md5 := fun _ => "m", sha256 := fun _ => "K",
    timestampIso := fun _ => "t", cwdComps := ["cwd"],
    otherFormatResult := fun _ => .unknown, extraExtTypes := fun _ => [] }

/-- The entry already stored under key `K` in the conflict scenario. -/
def entryConf : SubEntry :=
  ⟨⟨⟨"old.pdf", 1, "x", "K", "t0", .pdf⟩, .pdf⟩, "u", "b0", none⟩

/-- The rejected candidate of the conflict scenario. -/
def candConf : SubEntryGen :=
  ⟨⟨⟨"1202.3054.gz", 7, "m", "K", "t", .archive_gz⟩, .unknown⟩,
    "https://arxiv.org/abs/1202.3054", "bk", some ["Unknown submission type"]⟩

/-- Witness: one colliding call against `entryConf` records the marker and the
single rejected candidate. -/
theorem submission_key_conflicts_spec_witness :
    Registry.get_entry?
        (register_submissions envConf [("K", entryConf)] [("1202.3054.gz", "bk")]) "K" =
      some { entryConf with diagnostics := some ⟨errorLogOf entryConf ++ ["key conflicts"], some (candList envConf [("1202.3054.gz", "bk")])⟩ } :=
  (submission_key_conflicts_spec envConf [("K", entryConf)] "K" entryConf
    [("1202.3054.gz", "bk")] (by decide) (by decide) (by decide) (by decide)
    (by
      intro c hcm
      rw [List.mem_singleton] at hcm
      rw [hcm]
      exact ⟨candConf, by decide, by decide, rfl, by decide⟩)).1

/-- A member name with a `..` segment fails the character check: the
component `..` is explicitly excluded. -/
theorem is_path_characters_allowed_dotdot (m : String) (h : ".." ∈ pathComponents m) :
    FileName.is_path_characters_allowed m = false := by
  unfold FileName.is_path_characters_allowed
  rw [List.all_eq_false]
  exact ⟨"..", h, by decide⟩

/-- A member name with a `..` segment is not an allowed filename. -/
theorem is_filename_allowed_false_of_dotdot (env : Env) (m : String)
    (h : ".." ∈ pathComponents m) :
    FileName.is_filename_allowed env m = false := by
  unfold FileName.is_filename_allowed
  simp [is_path_characters_allowed_dotdot m h]

/-- With the default flags used by `check_extract_possible`, list uniqueness
is exactly no-duplicates of the lower-cased names. -/
theorem is_filename_list_unique_eval (ms : List String) :
    FileName.is_filename_list_unique ms true false = decide (ms.map strLower).Nodup := by
  simp [FileName.is_filename_list_unique]

/-- C6: an archive whose member-name list contains a `..` segment or two
names equal under case-insensitive comparison always fails the extraction
safety check when the source file and destination directory exist:
`check_extract_possible` returns a non-empty error list and
`is_extract_possible` returns false. -/
theorem check_extract_flags_unsafe_members (env : Env) (src dst : String) (ms : List String)
    (hf : env.isFile src = true) (hd : env.isDirectory dst = true)
    (hl : ArchiveHandler.list_contents env src = .ok ms)
    (hbad : (∃ m ∈ ms, ".." ∈ pathComponents m) ∨ ¬ (ms.map strLower).Nodup) :
    ∃ errs, ArchiveHandler.check_extract_possible env src dst = .ok errs ∧ errs ≠ [] ∧
      ArchiveHandler.is_extract_possible env src dst = .ok false := by
  have huv : FileName.is_filename_list_unique ms true false = false ∨
      ms.all (fun entry => FileName.is_filename_allowed env entry) = false := by
    rcases hbad with ⟨m, hm, hdd⟩ | hnd
    · right
      rw [List.all_eq_false]
      refine ⟨m, hm, ?_⟩
      rw [is_filename_allowed_false_of_dotdot env m hdd]
      simp
    · left
      rw [is_filename_list_unique_eval]
      exact decide_eq_false hnd
  cases hu : FileName.is_filename_list_unique ms true false <;>
    cases hv : ms.all (fun entry => FileName.is_filename_allowed env entry)
  case false.false =>
    refine ⟨["archive contents filename is not unique on case-insensitive file systems",
      "archive contents filenames are forbidden"], ?_, ?_, ?_⟩
    · simp [ArchiveHandler.check_extract_possible, hf, hd, hl, hu, hv]
    · simp
    · simp [ArchiveHandler.is_extract_possible, ArchiveHandler.check_extract_possible,
        hf, hd, hl, hu, hv]
  case false.true =>
    refine ⟨["archive contents filename is not unique on case-insensitive file systems"],
      ?_, ?_, ?_⟩
    · simp [ArchiveHandler.check_extract_possible, hf, hd, hl, hu, hv]
    · simp
    · simp [ArchiveHandler.is_extract_possible, ArchiveHandler.check_extract_possible,
        hf, hd, hl, hu, hv]
  case true.false =>
    refine ⟨["archive contents filenames are forbidden"], ?_, ?_, ?_⟩
    · simp [ArchiveHandler.check_extract_possible, hf, hd, hl, hu, hv]
    · simp
    · simp [ArchiveHandler.is_extract_possible, ArchiveHandler.check_extract_possible,
        hf, hd, hl, hu, hv]
  case true.true =>
    rcases huv with h | h
    · exact absurd hu (by simp [h])
    · exact absurd hv (by simp [h])

/-- Environment holding one tar archive `a.tar` with the traversal member
`../x`, alongside an existing destination directory `/`. -/
def envTraversal : Env :=
  { isFile := fun p => p = "a.tar", isDirectory := fun p => p = "/",
    tarParses := fun p => p = "a.tar", gzipParses := fun _ => false,
    tarMembers := fun p => if p = "a.tar" then ["../x"] else [],
    fileBytes := fun _ => [], sizeBytes := fun _ => 0, md5 := fun _ => "",
    sha256 := fun _ => "", timestampIso := fun _ => "", cwdComps := ["cwd"],
    otherFormatResult := fun _ => .unknown, extraExtTypes := fun _ => [] }

/-- Witness: the safety theorem applied to the concrete archive holding the
traversal member `../x`. -/
theorem check_extract_flags_unsafe_members_witness :
    ∃ errs, ArchiveHandler.check_extract_possible envTraversal "a.tar" "/" = .ok errs ∧
      errs ≠ [] ∧ ArchiveHandler.is_extract_possible envTraversal "a.tar" "/" = .ok false :=
  check_extract_flags_unsafe_members envTraversal "a.tar" "/" ["../x"] rfl rfl (by decide)
    (Or.inl ⟨"../x", by decide, by decide⟩)

/-- The newer manifest of the §8 scenario: timestamp 2, keys `{a, b}`. -/
def manifestM1 : Manifest :=
  { manifest_timestamp_iso := 2, contents_keys := {"a", "b"} }

/-- The older manifest of the §8 scenario: timestamp 1, keys `{a}`. -/
def manifestM2 : Manifest :=
  { manifest_timestamp_iso := 1, contents_keys := {"a"} }

/-- Witness: the `is_newer_than` theorem applied to the two concrete §8
manifests, whose growth conditions hold. -/
theorem is_newer_than_spec_witness :
    manifestM1.is_newer_than manifestM2 =
      .ok (decide (manifestM2.manifest_timestamp_iso < manifestM1.manifest_timestamp_iso)) :=
  (is_newer_than_spec manifestM1 manifestM2).2.2 (by decide) (by decide) (by decide)

/-- C8: when the receiver is strictly newer, `find_new_entries` returns
exactly the keys present in the receiver and absent from the reference;
otherwise it raises instead of returning a result. -/
theorem find_new_entries_spec (a b : Manifest) :
    (a.is_newer_than b = .ok true →
      a.find_new_entries b = .ok (a.list_keys \ b.list_keys)) ∧
    (a.is_newer_than b ≠ .ok true → ∃ e, a.find_new_entries b = .error e) := by
  unfold Manifest.find_new_entries
  constructor
  · intro h
    simp [h]
  · intro h
    match hn : a.is_newer_than b with
    | .error e => exact ⟨e, rfl⟩
    | .ok true => exact absurd hn h
    | .ok false =>
      exact ⟨.valueError "Reference manifest must be older than the current manifest", by simp⟩

/-- Witness: on the §8 scenario `find_new_entries` returns `{b}`, and with
the arguments reversed it raises. -/
theorem find_new_entries_spec_witness :
    manifestM1.find_new_entries manifestM2 = .ok ({"b"} : Finset String) ∧
    ∃ e, manifestM2.find_new_entries manifestM1 = .error e := by
  constructor
  · have h := (find_new_entries_spec manifestM1 manifestM2).1 (by decide)
    rw [h]
    decide
  · exact (find_new_entries_spec manifestM2 manifestM1).2 (by decide)

end ArxivBucket
